import Mathlib

/-!
# Fraud-detection dashboard: history view and analytics view

A shallow embedding of `src/frontend/js/history.js` and
`src/frontend/js/analytics.js`.

* The module-level variables of each script become a state record that the
  functions take and return.
* Values read from the page (the filter controls) are a record of inputs.
* Built-ins of the language whose result depends on the platform or on
  floating-point printing (`new Date(s)`, Number-to-String, String-to-Number,
  `toLowerCase`, and the order `sort` gives under a comparator that returns
  NaN) are taken as parameters, collected in `Builtins`.
* A Number is a rational or NaN; fraud scores and amounts are finite. The
  results of the divisions and products that are printed are rounded to the
  nearest double (`toDouble`).
* A function that can be left by a TypeError returns, beside its result,
  whether it ran to its end.
-/

namespace FraudDashboard

/-! ## Values of the language -/

/-- A Number of the language: a finite value, or NaN (written `none`). -/
abbrev JsNumber := Option ℚ

/-- The subtraction `x - y` of two Numbers; NaN when either side is NaN. -/
def JsNumber.sub : JsNumber → JsNumber → JsNumber
  | some x, some y => some (x - y)
  | _, _ => none

/-- The comparison `x < y` of two Numbers; false when either side is NaN. -/
def JsNumber.lt : JsNumber → JsNumber → Bool
  | some x, some y => decide (x < y)
  | _, _ => false

/-- Whether a comparator result is treated as greater than zero by
`Array.prototype.sort`: NaN is treated as `+0`. -/
def JsNumber.positive : JsNumber → Bool
  | some v => decide (0 < v)
  | none => false

/-- The built-ins whose value is fixed by the platform and not by the scripts:
`parseDate s` is the time value of `new Date(s)` (NaN for an invalid date),
`numberToString` is ToString on a Number, `stringToNumber` is ToNumber on a
String (NaN when the text is not numeric), `toLowerCase` is
`String.prototype.toLowerCase`, which folds every cased letter of the Unicode
version of the engine and maps the empty text to itself, and `sort` is what
`Array.prototype.sort` does with a comparator that is not consistent, where
the language only promises a permutation. -/
structure Builtins where
  parseDate : String → JsNumber
  numberToString : ℚ → String
  stringToNumber : String → JsNumber
  toLowerCase : String → String
  toLowerCase_empty : toLowerCase "" = ""
  sort : {α : Type} → (α → α → JsNumber) → List α → List α
  sort_perm : ∀ {α : Type} (cmp : α → α → JsNumber) (l : List α), (sort cmp l).Perm l

/-- ToBoolean of a string-valued property that may be missing: a missing
property and the empty string are falsy. -/
def truthy : Option String → Bool
  | some s => decide (s ≠ "")
  | none => false

/-- The folding of the letters A to Z to lower case: what
`String.prototype.toLowerCase` does on a text of ASCII characters. -/
def asciiLowerCase (s : String) : String :=
  String.mk (s.toList.map Char.toLower)

/-- The WhiteSpace and LineTerminator code points that `trim` removes. -/
def isWhiteSpace (c : Char) : Bool :=
  decide (c.toNat ∈ [9, 10, 11, 12, 13, 32, 160, 5760, 8232, 8233, 8239, 8287, 12288, 65279])
    || (decide (8192 ≤ c.toNat) && decide (c.toNat ≤ 8202))

/-- The method `String.prototype.trim`. -/
def trim (s : String) : String :=
  String.mk ((s.toList.dropWhile isWhiteSpace).reverse.dropWhile isWhiteSpace).reverse

/-- The method `s.includes(t)`: `t` occurs in `s` as a contiguous run. -/
def includes (s t : String) : Bool :=
  decide (t.toList <:+: s.toList)

/-- The expression `s.split('T')[0]`: the text before the first `T`, the whole
text when there is none. -/
def datePortion (s : String) : String :=
  String.mk (s.toList.takeWhile (fun c => c != 'T'))

/-- The comparison `a <= b` of two strings: lexicographic, character by
character (the language compares UTF-16 code units, which orders the
characters of the Basic Multilingual Plane as their code points do). -/
def strLe (a b : String) : Bool :=
  decide (a.toList ≤ b.toList)

/-! ## Data model -/

/-- One entry of `result.riskFactors`. -/
structure RiskFactor where
  factor : String
  risk : String
  comment : String
deriving DecidableEq

/-- The `amount` property of a payment request as it arrives in the JSON of
the backend: absent, a number, or a string. -/
inductive Amount where
  | missing
  | number (q : ℚ)
  | text (s : String)
deriving DecidableEq

/-- ToBoolean of an amount (`input.amount && ...`): zero, the empty string
and a missing amount are falsy. -/
def Amount.truthy : Amount → Bool
  | .missing => false
  | .number q => decide (q ≠ 0)
  | .text s => decide (s ≠ "")

/-- ToNumber of an amount (`a.input.amount - b.input.amount`,
`amount < 10000`). -/
def Amount.toNumber (B : Builtins) : Amount → JsNumber
  | .missing => none
  | .number q => some q
  | .text s => B.stringToNumber s

/-- The call `input.amount.toString()`, and the text of an amount inside a
template literal. -/
def Amount.toString (B : Builtins) : Amount → String
  | .missing => "undefined"
  | .number q => B.numberToString q
  | .text s => s

/-- The `input` object of a transaction. The four text properties may be
missing. -/
structure TransactionInput where
  name : Option String
  account : Option String
  country : Option String
  ifsc : Option String
  amount : Amount
deriving DecidableEq

/-- The `result` object of a transaction. -/
structure TransactionResult where
  status : Option String
  fraudScore : ℚ
  reason : Option String
  riskFactors : Option (List RiskFactor)
deriving DecidableEq

/-- A transaction as delivered by `/get-history-by-date`. -/
structure Transaction where
  id : String
  timestamp : String
  input : TransactionInput
  result : TransactionResult
deriving DecidableEq

/-! ## Array.prototype.sort -/

/-- Insertion of `a` into an already sorted list, in front of the first
element that the comparator does not put strictly before `a`. -/
def sortedInsert {α : Type} (cmp : α → α → JsNumber) (a : α) : List α → List α
  | [] => [a]
  | b :: l => if (cmp a b).positive then b :: sortedInsert cmp a l else a :: b :: l

/-- The stable sort by a comparator: the list is rebuilt by insertion from
its end, so that elements the comparator does not separate keep their order.
This is the result of `Array.prototype.sort(cmp)` whenever `cmp` is a
consistent comparator for the elements: the language requires the sort to
be stable, and the sorted order is then unique. -/
def stableSort {α : Type} (cmp : α → α → JsNumber) : List α → List α
  | [] => []
  | a :: l => sortedInsert cmp a (stableSort cmp l)

/-- No comparison between two elements of the list gives NaN. The comparators
of the scripts are differences of two keys (or the lexicographic order of
texts, or constant); such a comparator is consistent for the elements of a
list when none of its results on them is NaN. -/
def comparesAll {α : Type} (cmp : α → α → JsNumber) (l : List α) : Bool :=
  l.all (fun a => l.all (fun b => (cmp a b).isSome))

/-- The method `Array.prototype.sort(cmp)`: the stable sort when the
comparator gives no NaN on the elements; otherwise the comparator is not
consistent, the language leaves the order to the engine, and the result is
what the engine `B.sort` makes of it. -/
def arraySort {α : Type} (B : Builtins) (cmp : α → α → JsNumber) (l : List α) : List α :=
  if comparesAll cmp l then stableSort cmp l else B.sort cmp l

/-! ## history.js -/

/-- The module-level variables of `history.js`. The timer handle is the
number returned by `setInterval`, or `none` for `null`. -/
structure HistoryState where
  allTransactions : List Transaction
  filteredTransactions : List Transaction
  lastTransactionCount : Nat
  autoRefreshInterval : Option Nat
deriving DecidableEq

/-- The values of the filter controls of the page, as read by
`filterHistory`. `sortBy` is `none` when the page has no `sort-by`
element. -/
structure Controls where
  searchInput : String
  statusFilter : String
  dateFrom : String
  dateTo : String
  sortBy : Option String
deriving DecidableEq

/-- The `matchesSearch` expression of `filterHistory`; `searchTerm` is the
lower-cased value of the search box. -/
def matchesSearch (B : Builtins) (searchTerm : String) (tx : Transaction) : Bool :=
  let input := tx.input
  let result := tx.result
  decide (searchTerm = "")
    || (truthy input.name && includes (B.toLowerCase (input.name.getD "")) searchTerm)
    || (truthy input.account && includes (B.toLowerCase (input.account.getD "")) searchTerm)
    || (truthy input.country && includes (B.toLowerCase (input.country.getD "")) searchTerm)
    || (truthy input.ifsc && includes (B.toLowerCase (input.ifsc.getD "")) searchTerm)
    || (input.amount.truthy && includes (input.amount.toString B) searchTerm)
    || (truthy result.reason && includes (B.toLowerCase (result.reason.getD "")) searchTerm)
    || (match result.riskFactors with
        | some fs => fs.any (fun f =>
            includes (B.toLowerCase f.factor) searchTerm
              || includes (B.toLowerCase f.comment) searchTerm)
        | none => false)

/-- The `transactionStatus` expression of `filterHistory`. -/
def transactionStatus (B : Builtins) (tx : Transaction) : String :=
  if truthy tx.result.status then trim (B.toLowerCase (tx.result.status.getD "")) else ""

/-- The `filterStatus` expression of `filterHistory`. -/
def filterStatus (B : Builtins) (statusFilter : String) : String :=
  if statusFilter ≠ "" then trim (B.toLowerCase statusFilter) else ""

/-- The `matchesStatus` expression of `filterHistory`. -/
def matchesStatus (B : Builtins) (statusFilter : String) (tx : Transaction) : Bool :=
  decide (filterStatus B statusFilter = "")
    || decide (transactionStatus B tx = filterStatus B statusFilter)

/-- The `matchesDateRange` expression of `filterHistory`. -/
def matchesDateRange (dateFrom dateTo : String) (tx : Transaction) : Bool :=
  let transactionDate := datePortion tx.timestamp
  (decide (dateFrom = "") || strLe dateFrom transactionDate)
    && (decide (dateTo = "") || strLe transactionDate dateTo)

/-- The callback given to `allTransactions.filter` in `filterHistory`. -/
def matchesFilters (B : Builtins) (c : Controls) (tx : Transaction) : Bool :=
  matchesSearch B (B.toLowerCase c.searchInput) tx
    && matchesStatus B c.statusFilter tx
    && matchesDateRange c.dateFrom c.dateTo tx

/-- The value of `sortBy` in `filterHistory`:
`document.getElementById('sort-by')?.value || 'date-desc'`. -/
def sortByValue (c : Controls) : String :=
  match c.sortBy with
  | some v => if v ≠ "" then v else "date-desc"
  | none => "date-desc"

/-- The comparator given to `filteredTransactions.sort` in `filterHistory`. -/
def sortComparator (B : Builtins) (sortBy : String) (a b : Transaction) : JsNumber :=
  if sortBy = "date-asc" then (B.parseDate a.timestamp).sub (B.parseDate b.timestamp)
  else if sortBy = "date-desc" then (B.parseDate b.timestamp).sub (B.parseDate a.timestamp)
  else if sortBy = "score-asc" then some (a.result.fraudScore - b.result.fraudScore)
  else if sortBy = "score-desc" then some (b.result.fraudScore - a.result.fraudScore)
  else if sortBy = "amount-asc" then (a.input.amount.toNumber B).sub (b.input.amount.toNumber B)
  else if sortBy = "amount-desc" then (b.input.amount.toNumber B).sub (a.input.amount.toNumber B)
  else some 0

/-- The function `filterHistory`: `allTransactions.filter(...)` builds a new
array, which is then sorted in place and stored in `filteredTransactions`.
The texts written to the page are not part of the state; the call of
`displayHistory` that ends the function comes after the assignment, so a
TypeError raised there leaves the state as given here. -/
def filterHistory (B : Builtins) (c : Controls) (s : HistoryState) : HistoryState :=
  { s with
    filteredTransactions :=
      arraySort B (sortComparator B (sortByValue c))
        (s.allTransactions.filter (matchesFilters B c)) }

/-- A value shown on the page that is either a Number or a String, as
produced by expressions of the form `cond ? x.toFixed(1) : 0`. -/
inductive Shown where
  | number (n : JsNumber)
  | string (s : String)
deriving DecidableEq

/-- The exponent `e` with `2 ^ e ≤ x < 2 ^ (e + 1)` of a positive `x`, found
in at most `fuel` doublings or halvings. -/
def binaryExponent : Nat → ℚ → ℤ
  | 0, _ => 0
  | fuel + 1, x =>
      if x < 1 then binaryExponent fuel (x * 2) - 1
      else if 2 ≤ x then binaryExponent fuel (x / 2) + 1
      else 0

/-- The integer nearest to `m`, the even one on a tie. -/
def roundHalfEven (m : ℚ) : ℤ :=
  let n := Int.floor m
  if m - n < 1 / 2 then n
  else if 1 / 2 < m - n then n + 1
  else if n % 2 = 0 then n else n + 1

/-- The Number that an exact result is rounded to: the nearest IEEE 754
double (53 binary digits, exponent at least -1022), the one with the even
last digit on a tie. Results beyond the largest double, which become
Infinity, are not covered. -/
def toDouble (x : ℚ) : ℚ :=
  if x = 0 then 0
  else
    let e := max (binaryExponent 1100 |x|) (-1022)
    let ulp : ℚ := (2 : ℚ) ^ (e - 52)
    (if x < 0 then -1 else 1) * (roundHalfEven (|x| / ulp) : ℚ) * ulp

/-- The expression `(count / total) * 100` on two Numbers with `total` not
zero: the quotient is rounded to a double, and so is the product. -/
def percentValue (count total : ℚ) : ℚ :=
  toDouble (toDouble (count / total) * 100)

/-- The method `x.toFixed(1)` on a finite Number below 10^21: the nearest
multiple of one tenth, the larger one on a tie, printed with one decimal and
with the sign of `x`. -/
def toFixed1 (x : ℚ) : String :=
  let n : Nat := (Int.floor (|x| * 10 + 1 / 2)).toNat
  (if x < 0 then "-" else "") ++ Nat.repr (n / 10) ++ "." ++ Nat.repr (n % 10)

/-- The test `tx.result.status === name`. -/
def hasStatus (name : String) (tx : Transaction) : Bool :=
  decide (tx.result.status = some name)

/-- What `updateSummaryStats` computes and writes to the page. -/
structure SummaryStats where
  total : Nat
  approved : Nat
  review : Nat
  declined : Nat
  approvedPct : Shown
  reviewPct : Shown
  declinedPct : Shown
deriving DecidableEq

/-- The expression `total ? ((count/total)*100).toFixed(1) : 0`. -/
def percentOf (count total : Nat) : Shown :=
  if total ≠ 0 then .string (toFixed1 (percentValue (count : ℚ) (total : ℚ)))
  else .number (some 0)

/-- The function `updateSummaryStats`, as the values it computes from
`allTransactions`. -/
def updateSummaryStats (s : HistoryState) : SummaryStats :=
  let total := s.allTransactions.length
  let approved := (s.allTransactions.filter (hasStatus "approved")).length
  let review := (s.allTransactions.filter (hasStatus "review")).length
  let declined := (s.allTransactions.filter (hasStatus "declined")).length
  { total := total, approved := approved, review := review, declined := declined,
    approvedPct := percentOf approved total,
    reviewPct := percentOf review total,
    declinedPct := percentOf declined total }

/-- What `updateDailySummary` computes and writes to the page. -/
structure DailySummary where
  count : Nat
  approved : Nat
  review : Nat
  declined : Nat
  avgScore : Shown
deriving DecidableEq

/-- The function `updateDailySummary`; `nowIso` is the text of
`new Date().toISOString()` at the time of the call. -/
def updateDailySummary (nowIso : String) (s : HistoryState) : DailySummary :=
  let today := datePortion nowIso
  let todayTx := s.allTransactions.filter (fun tx => decide (datePortion tx.timestamp = today))
  let approved := (todayTx.filter (hasStatus "approved")).length
  let review := (todayTx.filter (hasStatus "review")).length
  let declined := (todayTx.filter (hasStatus "declined")).length
  let avgScore : Shown :=
    if todayTx.length > 0 then
      .string (toFixed1
        (percentValue (todayTx.foldl (fun sum t => toDouble (sum + toDouble t.result.fraudScore)) 0)
          (todayTx.length : ℚ)))
    else .number (some 0)
  { count := todayTx.length, approved := approved, review := review, declined := declined,
    avgScore := avgScore }

/-! ## analytics.js -/

/-- An object used as a table of counters: its own properties in creation
order, each holding a count or NaN (`none`). Properties inherited from
`Object.prototype` are not modelled. -/
abbrev Counters := List (String × Option Nat)

/-- The property read `o[k]`; the outer `none` is `undefined`. -/
def Counters.get (o : Counters) (k : String) : Option (Option Nat) :=
  (o.find? (fun p => decide (p.1 = k))).map (fun p => p.2)

/-- The assignment `o[k] = v`. -/
def Counters.set : Counters → String → Option Nat → Counters
  | [], k, v => [(k, v)]
  | (k', w) :: o, k, v => if k' = k then (k', v) :: o else (k', w) :: Counters.set o k v

/-- The statement `o[k]++`: a count grows by one, NaN stays NaN, and a
property that does not exist is created holding NaN (`undefined + 1`). -/
def Counters.increment : Counters → String → Counters
  | [], k => [(k, none)]
  | (k', w) :: o, k =>
      if k' = k then (k', w.map (fun n => n + 1)) :: o else (k', w) :: Counters.increment o k

/-- The Number read from a counter, `ToNumber(o[k])`: NaN (`none`) when the
property is missing or holds NaN. -/
def Counters.count (o : Counters) (k : String) : Option Nat :=
  (o.get k).join

/-- The object literal with the three status counters at zero. -/
def zeroStatusCounts : Counters :=
  [("approved", some 0), ("review", some 0), ("declined", some 0)]

/-- The property name that an optional string gives when used as a key
(`undefined` becomes the name "undefined"). -/
def propertyKey : Option String → String
  | some s => s
  | none => "undefined"

/-- The object `analyticsData.amountRanges`. -/
structure AmountRanges where
  small : Nat
  medium : Nat
  large : Nat
  veryLarge : Nat
deriving DecidableEq

/-- The object `analyticsData.dailyData`: one table of status counters per
date, in creation order. -/
abbrev DailyData := List (String × Counters)

/-- The module-level object `analyticsData` of `analytics.js`. -/
structure AnalyticsData where
  allTransactions : List Transaction
  statusCounts : Counters
  countryCounts : Counters
  amountRanges : AmountRanges
  dailyData : DailyData
deriving DecidableEq

/-- The country-count statements of `processAnalyticsData`:
`if (!countryCounts[country]) countryCounts[country] = 0; countryCounts[country]++`. -/
def countCountry (o : Counters) (country : String) : Counters :=
  let o1 :=
    match o.get country with
    | some (some (_ + 1)) => o
    | _ => o.set country (some 0)
  o1.increment country

/-- The amount-range statements of `processAnalyticsData`. -/
def countAmount (B : Builtins) (r : AmountRanges) (amount : Amount) : AmountRanges :=
  if (amount.toNumber B).lt (some 10000) then { r with small := r.small + 1 }
  else if (amount.toNumber B).lt (some 50000) then { r with medium := r.medium + 1 }
  else if (amount.toNumber B).lt (some 100000) then { r with large := r.large + 1 }
  else { r with veryLarge := r.veryLarge + 1 }

/-- The daily-data statements of `processAnalyticsData`:
`if (!dailyData[date]) dailyData[date] = (three zero counters); dailyData[date][status]++`. -/
def countDaily : DailyData → String → String → DailyData
  | [], date, status => [(date, zeroStatusCounts.increment status)]
  | (d, o) :: rest, date, status =>
      if d = date then (d, o.increment status) :: rest
      else (d, o) :: countDaily rest date status

/-- The body of the `forEach` of `processAnalyticsData` for one transaction. -/
def processTransaction (B : Builtins) (d : AnalyticsData) (tx : Transaction) : AnalyticsData :=
  let status := propertyKey tx.result.status
  let country := propertyKey tx.input.country
  let amount := tx.input.amount
  let date := datePortion tx.timestamp
  { d with
    statusCounts := d.statusCounts.increment status,
    countryCounts := countCountry d.countryCounts country,
    amountRanges := countAmount B d.amountRanges amount,
    dailyData := countDaily d.dailyData date status }

/-- The function `processAnalyticsData`: the counters are reset and every
transaction of `analyticsData.allTransactions` is counted, in order. -/
def processAnalyticsData (B : Builtins) (d : AnalyticsData) : AnalyticsData :=
  d.allTransactions.foldl (processTransaction B)
    { d with
      statusCounts := zeroStatusCounts,
      countryCounts := [],
      amountRanges := { small := 0, medium := 0, large := 0, veryLarge := 0 },
      dailyData := [] }

/-- The comparator of the sort in `generateInsights`:
`b.result.fraudScore - a.result.fraudScore`. -/
def byScoreDescending (a b : Transaction) : JsNumber :=
  some (b.result.fraudScore - a.result.fraudScore)

/-- The effect of `generateInsights` on `analyticsData`: the statement
`analyticsData.allTransactions.sort(...)` sorts that very array in place (the
name `sortedByScore` is bound to the same array). The insight texts written
to the page are not part of the state. -/
def generateInsights (B : Builtins) (d : AnalyticsData) : AnalyticsData :=
  { d with allTransactions := arraySort B byScoreDescending d.allTransactions }

/-- The transaction `sortedByScore[0]` that `generateInsights` reports as the
one with the highest fraud score. -/
def highestScoring (B : Builtins) (d : AnalyticsData) : Option Transaction :=
  (generateInsights B d).allTransactions.head?

/-! ## history.js: loading, polling and the timer -/

/-- The JSON object returned by `/get-history-by-date`: its own properties in
the order of `Object.keys`, each date once, with the transactions stored
under that date. -/
abbrev HistoryByDate := List (String × List Transaction)

/-- The flattening loops shared by `loadHistory`, `checkForNewTransactions`
and `loadAnalyticsData`: for every date of `Object.keys(historyByDate)`, every
transaction of `historyByDate[date]` is pushed to the end of the target array,
which starts empty. -/
def flattenHistory (historyByDate : HistoryByDate) : List Transaction :=
  historyByDate.foldl (fun target entry => entry.2.foldl (fun target tx => target ++ [tx]) target) []

/-- The outcome of the request to `/get-history-by-date`: the parsed JSON of
a successful response, a response with status 401, or a rejected request. -/
inductive FetchResult where
  | ok (historyByDate : HistoryByDate)
  | unauthorized
  | failed
deriving DecidableEq

/-- The comparator `new Date(b.timestamp) - new Date(a.timestamp)` used by
`loadHistory` and by `displayHistory`. -/
def newestFirst (B : Builtins) (a b : Transaction) : JsNumber :=
  (B.parseDate b.timestamp).sub (B.parseDate a.timestamp)

/-- The property read `groupedByDate[date]`; `none` is `undefined`. -/
def HistoryByDate.get (g : HistoryByDate) (date : String) : Option (List Transaction) :=
  (g.find? (fun p => decide (p.1 = date))).map (fun p => p.2)

/-- The grouping statements of `displayHistory` for one transaction:
`if (!groupedByDate[date]) groupedByDate[date] = []` and then
`groupedByDate[date].push(transaction)`. -/
def groupPush : HistoryByDate → String → Transaction → HistoryByDate
  | [], date, tx => [(date, [tx])]
  | (d, g) :: rest, date, tx =>
      if d = date then (d, g ++ [tx]) :: rest else (d, g) :: groupPush rest date tx

/-- The object `groupedByDate` that `displayHistory` builds from
`filteredTransactions`. -/
def groupByDate (l : List Transaction) : HistoryByDate :=
  l.foldl (fun g tx => groupPush g (datePortion tx.timestamp) tx) []

/-- The UTF-16 code units of a run of characters: a character up to U+FFFF
is one unit, a character beyond is a pair of surrogates. -/
def codeUnitsOf : List Char → List Nat
  | [] => []
  | c :: cs =>
      if c.toNat < 65536 then c.toNat :: codeUnitsOf cs
      else (55296 + (c.toNat - 65536) / 1024) :: (56320 + (c.toNat - 65536) % 1024)
        :: codeUnitsOf cs

/-- The UTF-16 code units of a text, which the engine compares when it
orders two strings. -/
def codeUnits (s : String) : List Nat := codeUnitsOf s.toList

/-- The order of `Array.prototype.sort()` without a comparator on strings,
written as a comparator: negative when `a` comes first in the lexicographic
order of the code units, positive when `b` does. -/
def compareStrings (a b : String) : JsNumber :=
  if codeUnits a < codeUnits b then some (-1)
  else if codeUnits b < codeUnits a then some 1 else some 0

/-- The function `createTransactionCard`, as the transaction that the card
shows, or `none` when the call raises a TypeError: the text of the card calls
`result.status.toUpperCase()` and `result.riskFactors.slice(0, 6)`, which
fail on a missing status and on missing risk factors. -/
def createTransactionCard (tx : Transaction) : Option Transaction :=
  if tx.result.status.isSome && tx.result.riskFactors.isSome then some tx else none

/-- What a call of `displayHistory` leaves: the date groups appended to the
page, in order, each with its cards in order, and whether the call ran to its
end (`false` when a TypeError left it). -/
structure Display where
  groups : List (String × List Transaction)
  completed : Bool
deriving DecidableEq

/-- The loop `sortedDates.forEach(...)` of `displayHistory`: the group of a
date is sorted in place, newest first, its cards are made, and only then is
the group appended to the page. A TypeError of `createTransactionCard` leaves
the loop: that group and the later ones are neither sorted nor appended. -/
def appendGroups (B : Builtins) (groupedByDate : HistoryByDate) : List String → Display
  | [] => { groups := [], completed := true }
  | date :: rest =>
      if (arraySort B (newestFirst B) ((groupedByDate.get date).getD [])).all
          (fun tx => (createTransactionCard tx).isSome) then
        { groups := (date, arraySort B (newestFirst B) ((groupedByDate.get date).getD []))
            :: (appendGroups B groupedByDate rest).groups,
          completed := (appendGroups B groupedByDate rest).completed }
      else { groups := [], completed := false }

/-- The function `displayHistory`. Nothing is appended (the empty message is
shown) when `filteredTransactions` is empty. The dates are
`Object.keys(groupedByDate).sort().reverse()`. -/
def displayHistory (B : Builtins) (s : HistoryState) : Display :=
  if s.filteredTransactions.length = 0 then { groups := [], completed := true }
  else
    appendGroups B (groupByDate s.filteredTransactions)
      (arraySort B compareStrings
        ((groupByDate s.filteredTransactions).map (fun p => p.1))).reverse

/-- The function `loadHistory`, once the request has settled. On success
`allTransactions` becomes the flattened set sorted newest first; then
`populateDateFilter` (empty), `displayHistory` and `updateSummaryStats` are
called, none of which assigns a module variable (a TypeError raised by
`displayHistory` is caught and the empty state is shown). On a 401 response
or a rejected request no module variable is assigned. -/
def loadHistory (B : Builtins) (r : FetchResult) (s : HistoryState) : HistoryState :=
  match r with
  | .ok historyByDate =>
      { s with allTransactions := arraySort B (newestFirst B) (flattenHistory historyByDate) }
  | .unauthorized => s
  | .failed => s

/-- The function `stopAutoRefresh`: the new state and the handles passed to
`clearInterval`. The test `if (autoRefreshInterval)` is false for `null` and
for the number 0. -/
def stopAutoRefresh (s : HistoryState) : HistoryState × List Nat :=
  match s.autoRefreshInterval with
  | some (n + 1) => ({ s with autoRefreshInterval := none }, [n + 1])
  | _ => (s, [])

/-- The function `checkForNewTransactions`, once the request has settled: the
new state and whether `flashUpdateNotification` was called. `c` holds the
values of the filter controls at that time. When the fetched set is larger,
the two module variables are assigned and `filterHistory` is called, which
assigns `filteredTransactions` and then calls `displayHistory`; a TypeError
raised there is caught by the `catch` of this function, so that
`updateSummaryStats`, `updateDailySummary` and `flashUpdateNotification` are
not called. -/
def checkForNewTransactions (B : Builtins) (c : Controls) (r : FetchResult) (s : HistoryState) :
    HistoryState × Bool :=
  match r with
  | .ok historyByDate =>
      let newTransactions := flattenHistory historyByDate
      if newTransactions.length > s.lastTransactionCount then
        (filterHistory B c
          { s with
            allTransactions := newTransactions,
            lastTransactionCount := newTransactions.length },
         (displayHistory B
            (filterHistory B c
              { s with
                allTransactions := newTransactions,
                lastTransactionCount := newTransactions.length })).completed)
      else (s, false)
  | .unauthorized => ((stopAutoRefresh s).1, false)
  | .failed => (s, false)

/-! ## analytics.js: statistics, rates and loading -/

/-- The expression `((count / total) * 100).toFixed(1)` for a count read
from `analyticsData` (NaN when `none`) and a length `total`: the division by
zero gives NaN for `0 / 0` and Infinity otherwise, which `toFixed` prints as
the texts "NaN" and "Infinity". -/
def percentText (count : Option Nat) (total : Nat) : String :=
  match count with
  | none => "NaN"
  | some n =>
      if total = 0 then (if n = 0 then "NaN" else "Infinity")
      else toFixed1 (percentValue (n : ℚ) (total : ℚ))

/-- What `displayStatistics` computes and writes to the page. -/
structure Statistics where
  total : Nat
  approved : Option Nat
  review : Option Nat
  declined : Option Nat
  approvedPct : String
  reviewPct : String
  declinedPct : String
deriving DecidableEq

/-- The function `displayStatistics`. -/
def displayStatistics (d : AnalyticsData) : Statistics :=
  let total := d.allTransactions.length
  let approved := d.statusCounts.count "approved"
  let review := d.statusCounts.count "review"
  let declined := d.statusCounts.count "declined"
  { total := total, approved := approved, review := review, declined := declined,
    approvedPct := percentText approved total,
    reviewPct := percentText review total,
    declinedPct := percentText declined total }

/-- The rate constants of `generateInsights`. -/
structure InsightRates where
  approvedRate : String
  declinedRate : String
  largeRate : String
  reviewRate : String
deriving DecidableEq

/-- The constants `approvedRate`, `declinedRate`, `largeRate` and
`reviewRate` that `generateInsights` computes for its texts. -/
def insightRates (d : AnalyticsData) : InsightRates :=
  let total := d.allTransactions.length
  let largeTransactions := d.amountRanges.large + d.amountRanges.veryLarge
  { approvedRate := percentText (d.statusCounts.count "approved") total,
    declinedRate := percentText (d.statusCounts.count "declined") total,
    largeRate := percentText (some largeTransactions) total,
    reviewRate := percentText (d.statusCounts.count "review") total }

/-- Whether `generateInsights` runs to its end: the text of its fifth insight
calls `highest.result.status.toUpperCase()` on the first transaction of the
sorted array, which raises a TypeError when that status is missing. -/
def insightsComplete (B : Builtins) (d : AnalyticsData) : Bool :=
  match highestScoring B d with
  | some highest => highest.result.status.isSome
  | none => true

/-- What `loadAnalyticsData` leaves on the page: the failure text, the text
"No transactions found", or the dashboard with its statistics and rates. -/
inductive AnalyticsPage where
  | failed
  | noTransactions
  | dashboard (statistics : Statistics) (rates : InsightRates)
deriving DecidableEq

/-- The function `loadAnalyticsData`, once the request has settled; `fetched`
is the parsed JSON, or `none` when the request was rejected. When the
flattened list is empty the function returns before `processAnalyticsData`,
`displayStatistics`, `createCharts` and `generateInsights`. A TypeError
raised by `generateInsights`, after it has sorted the array, is caught: the
failure text is shown and the content stays hidden. -/
def loadAnalyticsData (B : Builtins) (fetched : Option HistoryByDate) (d : AnalyticsData) :
    AnalyticsData × AnalyticsPage :=
  match fetched with
  | none => (d, .failed)
  | some historyByDate =>
      let d1 := { d with allTransactions := flattenHistory historyByDate }
      if d1.allTransactions.length = 0 then (d1, .noTransactions)
      else
        let d2 := processAnalyticsData B d1
        if insightsComplete B d2 then
          (generateInsights B d2, .dashboard (displayStatistics d2) (insightRates d2))
        else (generateInsights B d2, .failed)

/-- The property read `dailyData[date]`; `none` is `undefined`. -/
def DailyData.get (dd : DailyData) (date : String) : Option Counters :=
  (dd.find? (fun p => decide (p.1 = date))).map (fun p => p.2)

/-! ## history.js: the CSV text -/

/-- The locale-dependent built-ins used by `exportToCSV`, as functions of
the timestamp text `t`: `new Date(t).toLocaleDateString()` and
`new Date(t).toLocaleTimeString()`. -/
structure DateFormat where
  toLocaleDateString : String → String
  toLocaleTimeString : String → String

/-- The call `text.replace(/"/g, '""')`: every double quote is doubled. -/
def escapeQuotes (text : String) : String :=
  String.mk (text.toList.flatMap (fun c => if c = '"' then ['"', '"'] else [c]))

/-- The text that a template literal gives for a property that may be
missing: a missing property prints as "undefined". -/
def templateText : Option String → String
  | some v => v
  | none => "undefined"

/-- The header line of the CSV text. -/
def csvHeader : String :=
  "Date,Time,Name,Account,Amount,Country,IFSC,Fraud Score,Status,Reason\n"

/-- The body of the `forEach` of `exportToCSV` for one transaction: the row
added to the text, or `none` when `tx.input.name.replace` raises a TypeError
because the name is missing. Only `name` and `reason` go through
`replace`; `reason` is `(tx.result.reason || '')`. -/
def csvRow (B : Builtins) (F : DateFormat) (tx : Transaction) : Option String :=
  match tx.input.name with
  | none => none
  | some name =>
      let dateStr := F.toLocaleDateString tx.timestamp
      let timeStr := F.toLocaleTimeString tx.timestamp
      let reason := escapeQuotes (tx.result.reason.getD "")
      let score := toFixed1 (toDouble (toDouble tx.result.fraudScore * 100))
      some ("\"" ++ dateStr ++ "\",\"" ++ timeStr ++ "\",\"" ++ escapeQuotes name ++ "\",\""
        ++ templateText tx.input.account ++ "\"," ++ tx.input.amount.toString B ++ ",\""
        ++ templateText tx.input.country ++ "\",\"" ++ templateText tx.input.ifsc ++ "\","
        ++ score ++ ",\"" ++ templateText tx.result.status ++ "\",\"" ++ reason ++ "\"\n")

/-- The rows of all the transactions, one after the other, or `none` when
the loop is left by a TypeError. -/
def csvRows (B : Builtins) (F : DateFormat) : List Transaction → Option String
  | [] => some ""
  | tx :: l =>
      match csvRow B F tx, csvRows B F l with
      | some row, some rest => some (row ++ rest)
      | _, _ => none

/-- What a call of `exportToCSV` ends with: the alert that there is nothing
to export, a TypeError, or the download of the CSV text. -/
inductive ExportResult where
  | nothingToExport
  | typeError
  | csv (text : String)
deriving DecidableEq

/-- The function `exportToCSV`. -/
def exportToCSV (B : Builtins) (F : DateFormat) (s : HistoryState) : ExportResult :=
  if s.allTransactions.length = 0 then .nothingToExport
  else
    match csvRows B F s.allTransactions with
    | some rows => .csv (csvHeader ++ rows)
    | none => .typeError

/-! ## Score classes, recent searches, clearing and refreshing -/

/-- The constant `scoreClass` of `createTransactionCard`. -/
def scoreClass (tx : Transaction) : String :=
  if tx.result.fraudScore < 0.4 then "low"
  else if tx.result.fraudScore < 0.75 then "medium"
  else "high"

/-- The object `scoreRanges` of `createCharts`: the counters under the keys
'Low (0-40%)', 'Medium (40-75%)' and 'High (75-100%)'. -/
structure ScoreRanges where
  low : Nat
  medium : Nat
  high : Nat
deriving DecidableEq

/-- The body of the score `forEach` of `createCharts` for one score. -/
def countScore (r : ScoreRanges) (score : ℚ) : ScoreRanges :=
  if score < 0.4 then { r with low := r.low + 1 }
  else if score < 0.75 then { r with medium := r.medium + 1 }
  else { r with high := r.high + 1 }

/-- The fraud-score distribution that `createCharts` computes from
`analyticsData.allTransactions`. -/
def scoreRanges (d : AnalyticsData) : ScoreRanges :=
  d.allTransactions.foldl (fun r tx => countScore r tx.result.fraudScore)
    { low := 0, medium := 0, high := 0 }

/-- The constant `MAX_RECENT_SEARCHES`. -/
def MAX_RECENT_SEARCHES : Nat := 5

/-- The function `loadRecentSearches`; `stored` is the list kept as JSON
under the key `recentSearches` of the local storage, `none` when the key is
not set (`JSON.parse(null) || []`). -/
def loadRecentSearches (stored : Option (List String)) : List String :=
  stored.getD []

/-- The function `saveSearch`, as the new content of the key
`recentSearches`. -/
def saveSearch (term : String) (stored : Option (List String)) : Option (List String) :=
  if trim term = "" then stored
  else
    some ((term :: (loadRecentSearches stored).filter (fun s => s != term)).take
      MAX_RECENT_SEARCHES)

/-- The outcome of the request to `/reset-history`: a response that is ok, a
response that is not, or a rejected request. -/
inductive ResetResult where
  | ok
  | notOk
  | failed
deriving DecidableEq

/-- The function `clearAllHistory`, once the request has settled;
`confirmed` is the answer to the `confirm` dialog. Only an ok response
empties the two lists; `displayHistory` and `updateSummaryStats`, called
afterwards, assign no module variable. -/
def clearAllHistory (confirmed : Bool) (r : ResetResult) (s : HistoryState) : HistoryState :=
  if confirmed then
    match r with
    | .ok => { s with allTransactions := [], filteredTransactions := [] }
    | .notOk => s
    | .failed => s
  else s

/-- The function `refreshHistory`: the two lists are emptied, the options
of the element `date-filter` are reset, and `loadHistory` is awaited. When
the page has no element `date-filter` the reset raises a TypeError and
`loadHistory` is not reached. -/
def refreshHistory (B : Builtins) (hasDateFilter : Bool) (r : FetchResult) (s : HistoryState) :
    HistoryState :=
  let s1 := { s with allTransactions := [], filteredTransactions := [] }
  if hasDateFilter then loadHistory B r s1 else s1

/-- The function `startAutoRefresh`; `handle` is the number that
`setInterval` returns. -/
def startAutoRefresh (handle : Nat) (s : HistoryState) : HistoryState :=
  { s with autoRefreshInterval := some handle }

/-- One operation of the history view, with what it receives from the page
and from the backend. -/
inductive HistoryOp where
  | loadHistory (r : FetchResult)
  | refreshHistory (hasDateFilter : Bool) (r : FetchResult)
  | clearAllHistory (confirmed : Bool) (r : ResetResult)
  | checkForNewTransactions (c : Controls) (r : FetchResult)
  | filterHistory (c : Controls)
  | startAutoRefresh (handle : Nat)
  | stopAutoRefresh

/-- The state after one operation of the history view. -/
def HistoryOp.apply (B : Builtins) (s : HistoryState) : HistoryOp → HistoryState
  | .loadHistory r => FraudDashboard.loadHistory B r s
  | .refreshHistory hasDateFilter r => FraudDashboard.refreshHistory B hasDateFilter r s
  | .clearAllHistory confirmed r => FraudDashboard.clearAllHistory confirmed r s
  | .checkForNewTransactions c r => (FraudDashboard.checkForNewTransactions B c r s).1
  | .filterHistory c => FraudDashboard.filterHistory B c s
  | .startAutoRefresh handle => FraudDashboard.startAutoRefresh handle s
  | .stopAutoRefresh => (FraudDashboard.stopAutoRefresh s).1

/-- The state after a sequence of operations of the history view. -/
def runHistory (B : Builtins) (ops : List HistoryOp) (s : HistoryState) : HistoryState :=
  ops.foldl (HistoryOp.apply B) s

/-! ## Auxiliary definitions used to state the properties -/

/-- The number that a run of decimal digits spells. -/
def digitsValue (cs : List Char) : Nat :=
  cs.foldl (fun n c => 10 * n + (c.toNat - 48)) 0

/-- The time value of a text of the shape `YYYY-MM-DDTHH:MM:SS`, as the number
that its fourteen digits spell, which orders such texts as their time values
do. A field out of range (month 13, hour 25) makes the date invalid, and so
does every other shape, whose reading the language leaves to the engine. -/
def readTimestamp (cs : List Char) : JsNumber :=
  match cs with
  | [y1, y2, y3, y4, p1, m1, m2, p2, d1, d2, t, h1, h2, q1, n1, n2, q2, s1, s2] =>
      if [y1, y2, y3, y4, m1, m2, d1, d2, h1, h2, n1, n2, s1, s2].all Char.isDigit
          && p1 == '-' && p2 == '-' && t == 'T' && q1 == ':' && q2 == ':'
          && decide (1 ≤ digitsValue [m1, m2]) && decide (digitsValue [m1, m2] ≤ 12)
          && decide (1 ≤ digitsValue [d1, d2]) && decide (digitsValue [d1, d2] ≤ 31)
          && decide (digitsValue [h1, h2] ≤ 23) && decide (digitsValue [n1, n2] ≤ 59)
          && decide (digitsValue [s1, s2] ≤ 59) then
        some (digitsValue [y1, y2, y3, y4, m1, m2, d1, d2, h1, h2, n1, n2, s1, s2] : ℚ)
      else none
  | _ => none

/-- The decimal literal forms of ToNumber on a trimmed, non-empty text: an
optional sign, digits, and an optional fraction. Every other text reads as
NaN (the exponent, hexadecimal and Infinity forms are not covered). -/
def readDecimal (cs : List Char) : JsNumber :=
  let negative := decide (cs.head? = some '-')
  let body := if cs.head? = some '-' ∨ cs.head? = some '+' then cs.tail else cs
  let whole := body.takeWhile Char.isDigit
  let value : JsNumber :=
    match body.dropWhile Char.isDigit with
    | [] => if whole = [] then none else some (digitsValue whole : ℚ)
    | c :: fraction =>
        if c = '.' ∧ fraction.all Char.isDigit = true ∧ (whole ≠ [] ∨ fraction ≠ []) then
          some ((digitsValue whole : ℚ) + (digitsValue fraction : ℚ) / 10 ^ fraction.length)
        else none
  value.map (fun v => if negative then -v else v)

/-- The digits after the decimal point of a number in [0, 1), at most `fuel`
of them. -/
def fractionDigits : Nat → ℚ → List Char
  | 0, _ => []
  | fuel + 1, r =>
      if r = 0 then []
      else Char.ofNat (48 + (Int.floor (r * 10)).toNat)
        :: fractionDigits fuel (r * 10 - (Int.floor (r * 10) : ℚ))

/-- Whether a comparator result is treated as less than zero by the sort of
the engine: NaN is treated as `+0`. -/
def JsNumber.negative : JsNumber → Bool
  | some v => decide (v < 0)
  | none => false

/-- The binary search of the insertion sort of the V8 engine: the index in
`sorted`, between `left` and `right`, at which `pivot` is put. The pivot goes
left of the middle element when the comparator puts it strictly before that
element, and right of it otherwise. -/
def searchIndex {α : Type} (cmp : α → α → JsNumber) (pivot : α) (sorted : List α) :
    Nat → Nat → Nat → Nat
  | 0, left, _ => left
  | fuel + 1, left, right =>
      if left < right then
        match sorted.get? (left + (right - left) / 2) with
        | some middle =>
            if (cmp pivot middle).negative then
              searchIndex cmp pivot sorted fuel left (left + (right - left) / 2)
            else searchIndex cmp pivot sorted fuel (left + (right - left) / 2 + 1) right
        | none => left
      else left

/-- The list with `a` put at index `i`. -/
def insertAt {α : Type} (l : List α) (i : Nat) (a : α) : List α :=
  l.take i ++ a :: l.drop i

/-- The binary insertion sort of the V8 engine: the elements of `rest` are
put, one after the other, into `sorted` at the index the binary search
gives. -/
def binaryInsertion {α : Type} (cmp : α → α → JsNumber) : List α → List α → List α
  | sorted, [] => sorted
  | sorted, pivot :: rest =>
      binaryInsertion cmp
        (insertAt sorted (searchIndex cmp pivot sorted (sorted.length + 1) 0 sorted.length) pivot)
        rest

/-- The continuation of the first run of the V8 engine after `previous`: the
elements taken into the run, and those left. A descending run goes on while
the comparator puts each element strictly before the one in front of it, an
ascending run while it does not. -/
def takeRun {α : Type} (cmp : α → α → JsNumber) (descending : Bool) (previous : α) :
    List α → List α × List α
  | [] => ([], [])
  | current :: rest =>
      if (cmp current previous).negative = descending then
        ((current :: (takeRun cmp descending current rest).1), (takeRun cmp descending current rest).2)
      else ([], current :: rest)

/-- The sort of the V8 engine on an array of fewer than 64 elements, which is
one run: the first run is found (and reversed when it descends), and the
other elements are put into it by binary insertion. A comparator result of
NaN counts as zero. Longer arrays, which the engine sorts by merging runs,
are not modelled: the same procedure stands in for them. -/
def engineSort {α : Type} (cmp : α → α → JsNumber) : List α → List α
  | [] => []
  | [a] => [a]
  | a :: b :: rest =>
      binaryInsertion cmp
        (if (cmp b a).negative then
          (a :: b :: (takeRun cmp (cmp b a).negative b rest).1).reverse
         else a :: b :: (takeRun cmp (cmp b a).negative b rest).1)
        (takeRun cmp (cmp b a).negative b rest).2

/-- A choice of the platform built-ins for closed examples. A date text is
read by `readTimestamp`; an
integer is printed in decimal and another number with its decimal digits; a
text is read by `readDecimal` after trimming, the empty text as 0; the
lower-casing is that of ASCII text; the sort is that of the V8 engine. -/
def sampleBuiltins : Builtins :=
  { parseDate := fun s => readTimestamp s.toList,
    numberToString := fun q =>
      (if q < 0 then "-" else "") ++ Nat.repr (Int.floor |q|).toNat
        ++ (if q.den = 1 then ""
            else "." ++ String.mk (fractionDigits 17 (|q| - (Int.floor |q| : ℚ)))),
    stringToNumber := fun s =>
      if (trim s).toList = [] then some 0 else readDecimal (trim s).toList,
    toLowerCase := asciiLowerCase,
    toLowerCase_empty := by decide,
    sort := fun cmp l => engineSort cmp l,
    sort_perm := by
      intro α cmp l
      have hinsert : ∀ (s : List α) (i : Nat) (a : α), (insertAt s i a).Perm (a :: s) := by
        intro s i a
        unfold insertAt
        exact List.perm_middle.trans (List.Perm.cons a (List.Perm.of_eq (List.take_append_drop i s)))
      have hbinary : ∀ (rest sorted : List α),
          (binaryInsertion cmp sorted rest).Perm (sorted ++ rest) := by
        intro rest
        induction rest with
        | nil => intro sorted; simp [binaryInsertion]
        | cons pivot rest ih =>
          intro sorted
          unfold binaryInsertion
          refine (ih _).trans ?_
          exact (List.Perm.append_right rest (hinsert sorted _ pivot)).trans
            List.perm_middle.symm
      have hrun : ∀ (rest : List α) (descending : Bool) (previous : α),
          (takeRun cmp descending previous rest).1 ++ (takeRun cmp descending previous rest).2
            = rest := by
        intro rest
        induction rest with
        | nil => intro descending previous; rfl
        | cons current rest ih =>
          intro descending previous
          unfold takeRun
          split
          · simp [ih]
          · rfl
      show (engineSort cmp l).Perm l
      match l with
      | [] => exact List.Perm.refl _
      | [a] => exact List.Perm.refl _
      | a :: b :: rest =>
        unfold engineSort
        refine (hbinary _ _).trans ?_
        have hsplit := hrun rest (cmp b a).negative b
        have hfirst : (if (cmp b a).negative = true then
              (a :: b :: (takeRun cmp (cmp b a).negative b rest).1).reverse
            else a :: b :: (takeRun cmp (cmp b a).negative b rest).1).Perm
            (a :: b :: (takeRun cmp (cmp b a).negative b rest).1) := by
          split
          · exact List.reverse_perm _
          · exact List.Perm.refl _
        refine (List.Perm.append_right _ hfirst).trans ?_
        rw [List.cons_append, List.cons_append, hsplit] }

/-- The sum `statusCounts.approved + statusCounts.review + statusCounts.declined`,
NaN (`none`) when a summand is. -/
def statusCountsSum (o : Counters) : Option Nat :=
  match o.count "approved", o.count "review", o.count "declined" with
  | some a, some r, some d => some (a + r + d)
  | _, _, _ => none

/-- The status of the transaction is one of the three known values. -/
def knownStatus (tx : Transaction) : Bool :=
  hasStatus "approved" tx || hasStatus "review" tx || hasStatus "declined" tx

/-- A transaction with the given id, timestamp, amount, fraud score and
status, and nothing else. -/
def sampleTx (id timestamp : String) (amount : Amount) (score : ℚ) (status : String) :
    Transaction :=
  { id := id, timestamp := timestamp,
    input := { name := none, account := none, country := none, ifsc := none, amount := amount },
    result := { status := some status, fraudScore := score, reason := none, riskFactors := none } }

/-- The analytics object holding the given transactions and fresh counters. -/
def analyticsOf (l : List Transaction) : AnalyticsData :=
  { allTransactions := l, statusCounts := zeroStatusCounts, countryCounts := [],
    amountRanges := { small := 0, medium := 0, large := 0, veryLarge := 0 }, dailyData := [] }

/-- The history state holding the given transactions and nothing else. -/
def historyOf (l : List Transaction) : HistoryState :=
  { allTransactions := l, filteredTransactions := [], lastTransactionCount := 0,
    autoRefreshInterval := none }

/-- The controls with the given date range and sort key, an empty search
box and no status filter. -/
def dateControls (dateFrom dateTo : String) (sortBy : Option String) : Controls :=
  { searchInput := "", statusFilter := "", dateFrom := dateFrom, dateTo := dateTo,
    sortBy := sortBy }

/-- The date criterion in the words of the specification: the date portion of
the timestamp is not before `dateFrom` when that is given and not after
`dateTo` when that is given, in the lexicographic order of the characters. -/
def DateInRange (dateFrom dateTo : String) (tx : Transaction) : Prop :=
  (dateFrom = "" ∨ dateFrom.toList ≤ (datePortion tx.timestamp).toList)
    ∧ (dateTo = "" ∨ (datePortion tx.timestamp).toList ≤ dateTo.toList)

instance (dateFrom dateTo : String) (tx : Transaction) : Decidable (DateInRange dateFrom dateTo tx) := by
  unfold DateInRange; infer_instance

/-- A status lower-cased and trimmed; a missing status is the empty text. -/
def normalizedStatus (B : Builtins) : Option String → String
  | some st => trim (B.toLowerCase st)
  | none => ""

/-- The status criterion in the words of the specification: the filter is
empty once lower-cased and trimmed, or it equals the status of the
transaction, both lower-cased and trimmed. -/
def StatusAccepted (B : Builtins) (statusFilter : String) (tx : Transaction) : Prop :=
  trim (B.toLowerCase statusFilter) = ""
    ∨ normalizedStatus B tx.result.status = trim (B.toLowerCase statusFilter)

instance (B : Builtins) (statusFilter : String) (tx : Transaction) :
    Decidable (StatusAccepted B statusFilter tx) := by
  unfold StatusAccepted; infer_instance

/-- The four transactions of the example of the specification: three dated
2024-01-01 with statuses approved, review, declined, and one dated 2024-01-02
with status approved. -/
def exampleTransactions : List Transaction :=
  [sampleTx "1" "2024-01-01T09:00:00" (.number 100) 0 "approved",
   sampleTx "2" "2024-01-01T10:00:00" (.number 200) 0 "review",
   sampleTx "3" "2024-01-01T11:00:00" (.number 300) 1 "declined",
   sampleTx "4" "2024-01-02T09:00:00" (.number 400) 0 "approved"]

/-- The text `term`, compared without regard to case, occurs in `text`. -/
def containsIgnoringCase (B : Builtins) (text term : String) : Prop :=
  includes (B.toLowerCase text) (B.toLowerCase term) = true

/-- The text `term`, compared without regard to case, occurs in the factor or
in the comment of one of the risk factors. -/
def RiskFactorsContain (B : Builtins) (fs : Option (List RiskFactor)) (term : String) : Prop :=
  ∃ l, fs = some l ∧
    ∃ f ∈ l, containsIgnoringCase B f.factor term ∨ containsIgnoringCase B f.comment term

/-- The search criterion in the words of the specification: the term is
empty, or it occurs, compared without regard to case, in the name, the
account, the country, the ifsc, the stringified amount, the reason, or the
factor or comment of some risk factor. -/
def SearchAccepted (B : Builtins) (term : String) (tx : Transaction) : Prop :=
  term = ""
    ∨ (∃ v, tx.input.name = some v ∧ containsIgnoringCase B v term)
    ∨ (∃ v, tx.input.account = some v ∧ containsIgnoringCase B v term)
    ∨ (∃ v, tx.input.country = some v ∧ containsIgnoringCase B v term)
    ∨ (∃ v, tx.input.ifsc = some v ∧ containsIgnoringCase B v term)
    ∨ (tx.input.amount ≠ Amount.missing
        ∧ containsIgnoringCase B (tx.input.amount.toString B) term)
    ∨ (∃ v, tx.result.reason = some v ∧ containsIgnoringCase B v term)
    ∨ RiskFactorsContain B tx.result.riskFactors term

/-- The six sort keys of the `sort-by` control. -/
def sortKeys : List String :=
  ["date-asc", "date-desc", "score-asc", "score-desc", "amount-asc", "amount-desc"]

/-- The field that a sort key orders by, as a Number: the time value of the
timestamp, the fraud score, or the amount. -/
def sortField (B : Builtins) (sortBy : String) (tx : Transaction) : JsNumber :=
  if sortBy = "date-asc" ∨ sortBy = "date-desc" then B.parseDate tx.timestamp
  else if sortBy = "score-asc" ∨ sortBy = "score-desc" then some tx.result.fraudScore
  else tx.input.amount.toNumber B

/-- The direction of a sort key: true for the three descending keys. -/
def descending (sortBy : String) : Bool :=
  decide (sortBy = "date-desc" ∨ sortBy = "score-desc" ∨ sortBy = "amount-desc")

/-- The amount of the transaction is a number below 10 000. -/
def isSmallAmount (B : Builtins) (tx : Transaction) : Bool :=
  match tx.input.amount.toNumber B with
  | some x => decide (x < 10000)
  | none => false

/-- The amount of the transaction is a number from 10 000 up to, not
including, 50 000. -/
def isMediumAmount (B : Builtins) (tx : Transaction) : Bool :=
  match tx.input.amount.toNumber B with
  | some x => decide (10000 ≤ x ∧ x < 50000)
  | none => false

/-- The amount of the transaction is a number from 50 000 up to, not
including, 100 000. -/
def isLargeAmount (B : Builtins) (tx : Transaction) : Bool :=
  match tx.input.amount.toNumber B with
  | some x => decide (50000 ≤ x ∧ x < 100000)
  | none => false

/-- The amount of the transaction is a number of at least 100 000. -/
def isVeryLargeAmount (B : Builtins) (tx : Transaction) : Bool :=
  match tx.input.amount.toNumber B with
  | some x => decide (100000 ≤ x)
  | none => false

/-- The transaction is dated `date` and has exactly the status `name`. -/
def onDateWithStatus (date name : String) (tx : Transaction) : Bool :=
  decide (datePortion tx.timestamp = date) && hasStatus name tx

/-- The name is one of the three status names. -/
def IsStatusName (name : String) : Prop :=
  name = "approved" ∨ name = "review" ∨ name = "declined"

/-- A choice of the locale built-ins for closed examples: the date is the
text before the `T` of the timestamp and the time the text after it. -/
def sampleDateFormat : DateFormat :=
  { toLocaleDateString := fun t => datePortion t,
    toLocaleTimeString := fun t => String.mk ((t.toList.dropWhile (fun c => c != 'T')).drop 1) }

/-- A transaction with every text field present: the name Asha, the given
account, country IN, an ifsc code, amount 100, fraud score 0, status approved
and the reason ok. -/
def accountTx (account : String) : Transaction :=
  { id := "1", timestamp := "2024-01-01T09:00:00",
    input := { name := some "Asha", account := some account, country := some "IN",
               ifsc := some "HDFC0001", amount := .number 100 },
    result := { status := some "approved", fraudScore := 0, reason := some "ok",
                riskFactors := some [] } }

/-- A transaction with no name, the other fields as in `accountTx`. -/
def namelessTx : Transaction :=
  { id := "0", timestamp := "2024-01-01T08:00:00",
    input := { name := none, account := some "1234", country := some "IN",
               ifsc := some "HDFC0001", amount := .number 100 },
    result := { status := some "approved", fraudScore := 0, reason := some "ok",
                riskFactors := some [] } }

/-- The transaction `a` stands before `b` in the order of the sort key: both
fields are numbers, and they are in the direction of the key. -/
def KeyOrdered (B : Builtins) (sortBy : String) (a b : Transaction) : Prop :=
  ∃ x y, sortField B sortBy a = some x ∧ sortField B sortBy b = some y
    ∧ if descending sortBy then y ≤ x else x ≤ y

/-- An approved transaction of 2024-01-01 with the given id and amount. -/
def amountTx (id : String) (amount : Amount) : Transaction :=
  sampleTx id "2024-01-01T09:00:00" amount 0 "approved"

/-- Seven transactions with the amounts 1, "abc", 9, none, 5, 0 and 5. -/
def mixedAmounts : List Transaction :=
  [amountTx "a" (.number 1), amountTx "b" (.text "abc"), amountTx "c" (.number 9),
   amountTx "d" .missing, amountTx "e" (.number 5), amountTx "f" (.number 0),
   amountTx "g" (.number 5)]

/-- Eighty transactions of 2024-01-01, of which the first 23 are approved and
the other 57 declined. -/
def eightyTransactions : List Transaction :=
  List.replicate 23 (sampleTx "a" "2024-01-01T09:00:00" (.number 100) 0 "approved")
    ++ List.replicate 57 (sampleTx "d" "2024-01-01T10:00:00" (.number 100) 0 "declined")

/-- An approved transaction with the given id and timestamp that has a
status and a list of risk factors, so that its card can be made. -/
def cardTx (id timestamp : String) : Transaction :=
  { id := id, timestamp := timestamp,
    input := { name := some "Asha", account := some "1234", country := some "IN",
               ifsc := some "HDFC0001", amount := .number 100 },
    result := { status := some "approved", fraudScore := 0, reason := some "ok",
                riskFactors := some [] } }

/-! ## Lemmas on counters -/

theorem Counters.get_nil (k : String) : Counters.get [] k = none := rfl

theorem Counters.get_cons (q : String) (w : Option Nat) (o : Counters) (k : String) :
    Counters.get ((q, w) :: o) k = if q = k then some w else Counters.get o k := by
  by_cases h : q = k <;> simp [Counters.get, List.find?, h]

theorem Counters.get_increment (o : Counters) (k k' : String) :
    (o.increment k).get k' =
      if k = k' then some (((o.get k).join).map (fun n => n + 1)) else o.get k' := by
  induction o with
  | nil =>
    by_cases h : k = k' <;> simp [Counters.increment, Counters.get_cons, Counters.get_nil, h]
  | cons p o ih =>
    obtain ⟨q, w⟩ := p
    by_cases hq : q = k
    · subst hq
      by_cases h : q = k' <;> simp [Counters.increment, Counters.get_cons, h]
    · by_cases h : k = k'
      · subst h
        simp [Counters.increment, Counters.get_cons, hq, ih]
      · have h' : ¬ k' = k := fun e => h e.symm
        by_cases hq' : q = k' <;>
          simp [Counters.increment, Counters.get_cons, hq, hq', h, h', ih]

theorem Counters.count_increment (o : Counters) (k k' : String) :
    (o.increment k).count k' =
      if k = k' then (o.count k).map (fun n => n + 1) else o.count k' := by
  unfold Counters.count
  rw [Counters.get_increment]
  by_cases h : k = k' <;> simp [h]

theorem foldl_processTransaction_statusCounts (B : Builtins) (l : List Transaction)
    (d : AnalyticsData) :
    (l.foldl (processTransaction B) d).statusCounts =
      l.foldl (fun o tx => Counters.increment o (propertyKey tx.result.status)) d.statusCounts := by
  induction l generalizing d with
  | nil => rfl
  | cons tx l ih => simp only [List.foldl_cons, ih]; rfl

theorem count_foldl_increment (name : String) (hn : name ≠ "undefined") (l : List Transaction)
    (o : Counters) (n : Nat) (h : o.count name = some n) :
    (l.foldl (fun o tx => Counters.increment o (propertyKey tx.result.status)) o).count name =
      some (n + (l.filter (hasStatus name)).length) := by
  induction l generalizing o n with
  | nil => simpa using h
  | cons tx l ih =>
    simp only [List.foldl_cons]
    by_cases hs : tx.result.status = some name
    · have h1 : (o.increment (propertyKey tx.result.status)).count name = some (n + 1) := by
        rw [Counters.count_increment, hs]; simp [propertyKey, h]
      rw [ih _ _ h1]
      simp [List.filter_cons, hasStatus, hs]; omega
    · have hk : propertyKey tx.result.status ≠ name := by
        cases hst : tx.result.status with
        | none => exact fun e => hn e.symm
        | some v =>
          intro hv
          apply hs
          rw [hst]
          exact congrArg some hv
      have h1 : (o.increment (propertyKey tx.result.status)).count name = some n := by
        rw [Counters.count_increment]; simp [hk, h]
      rw [ih _ _ h1]
      simp [List.filter_cons, hasStatus, hs]

/-- After `processAnalyticsData` each of the three status counters holds the
number of transactions that have exactly that status. -/
theorem processAnalyticsData_count (B : Builtins) (d : AnalyticsData) (name : String)
    (hname : name = "approved" ∨ name = "review" ∨ name = "declined") :
    (processAnalyticsData B d).statusCounts.count name =
      some (d.allTransactions.filter (hasStatus name)).length := by
  unfold processAnalyticsData
  rw [foldl_processTransaction_statusCounts]
  have hn : name ≠ "undefined" := by
    rcases hname with h | h | h <;> subst h <;> decide
  have h0 : Counters.count zeroStatusCounts name = some 0 := by
    rcases hname with h | h | h <;> subst h <;> decide
  have := count_foldl_increment name hn d.allTransactions zeroStatusCounts 0 h0
  simpa using this

theorem filter_known_length (l : List Transaction) :
    (l.filter (hasStatus "approved")).length + (l.filter (hasStatus "review")).length
        + (l.filter (hasStatus "declined")).length
      = (l.filter knownStatus).length := by
  induction l with
  | nil => rfl
  | cons tx l ih =>
    by_cases h1 : tx.result.status = some "approved"
    · simp [List.filter_cons, knownStatus, hasStatus, h1] at ih ⊢; omega
    · by_cases h2 : tx.result.status = some "review"
      · simp [List.filter_cons, knownStatus, hasStatus, h2] at ih ⊢; omega
      · by_cases h3 : tx.result.status = some "declined"
        · simp [List.filter_cons, knownStatus, hasStatus, h3] at ih ⊢; omega
        · simp [List.filter_cons, knownStatus, hasStatus, h1, h2, h3] at ih ⊢; omega

/-! ## Status counts (C1) -/

/-- C1, as stated, fails: for the list holding one transaction whose status
is "pending", the three status counters of `processAnalyticsData` sum to 0 and
the three counts of `updateSummaryStats` sum to 0, while the list has one
transaction. -/
theorem statusCounts_sum_counterexample :
    statusCountsSum
        (processAnalyticsData sampleBuiltins
          (analyticsOf [sampleTx "1" "2024-01-01T10:00:00" (.number 100) 0 "pending"])).statusCounts
      = some 0
    ∧ (analyticsOf [sampleTx "1" "2024-01-01T10:00:00" (.number 100) 0 "pending"]).allTransactions.length
      = 1
    ∧ (updateSummaryStats
          (historyOf [sampleTx "1" "2024-01-01T10:00:00" (.number 100) 0 "pending"])).approved
        + (updateSummaryStats
          (historyOf [sampleTx "1" "2024-01-01T10:00:00" (.number 100) 0 "pending"])).review
        + (updateSummaryStats
          (historyOf [sampleTx "1" "2024-01-01T10:00:00" (.number 100) 0 "pending"])).declined
      = 0
    ∧ (updateSummaryStats
          (historyOf [sampleTx "1" "2024-01-01T10:00:00" (.number 100) 0 "pending"])).total
      = 1 := by
  refine ⟨?_, ?_, ?_, ?_⟩ <;> decide

/-- C1, amended: after `processAnalyticsData` the sum
`statusCounts.approved + statusCounts.review + statusCounts.declined` is the
number of transactions whose status is one of approved, review, declined, and
so is the sum of the three counts of `updateSummaryStats`; when every status
of the list is one of the three, both sums are the number of transactions. -/
theorem statusCounts_sum_known (B : Builtins) (d : AnalyticsData) (h : HistoryState) :
    statusCountsSum (processAnalyticsData B d).statusCounts
        = some (d.allTransactions.filter knownStatus).length
    ∧ (updateSummaryStats h).approved + (updateSummaryStats h).review
          + (updateSummaryStats h).declined
        = (h.allTransactions.filter knownStatus).length
    ∧ ((∀ tx ∈ d.allTransactions, knownStatus tx = true) →
        statusCountsSum (processAnalyticsData B d).statusCounts
          = some d.allTransactions.length)
    ∧ ((∀ tx ∈ h.allTransactions, knownStatus tx = true) →
        (updateSummaryStats h).approved + (updateSummaryStats h).review
            + (updateSummaryStats h).declined
          = (updateSummaryStats h).total) := by
  have hsum : statusCountsSum (processAnalyticsData B d).statusCounts
      = some (d.allTransactions.filter knownStatus).length := by
    unfold statusCountsSum
    rw [processAnalyticsData_count B d "approved" (Or.inl rfl),
      processAnalyticsData_count B d "review" (Or.inr (Or.inl rfl)),
      processAnalyticsData_count B d "declined" (Or.inr (Or.inr rfl))]
    simp only [filter_known_length]
  have hstats : (updateSummaryStats h).approved + (updateSummaryStats h).review
        + (updateSummaryStats h).declined
      = (h.allTransactions.filter knownStatus).length := by
    simp only [updateSummaryStats, filter_known_length]
  refine ⟨hsum, hstats, ?_, ?_⟩
  · intro hall
    rw [hsum, List.filter_eq_self.mpr hall]
  · intro hall
    rw [hstats, List.filter_eq_self.mpr hall]
    rfl

/-- C1, amended, on the example of the specification, whose four statuses
are known: both sums are 4. -/
theorem statusCounts_sum_known_witness :
    statusCountsSum
        (processAnalyticsData sampleBuiltins (analyticsOf exampleTransactions)).statusCounts
      = some (analyticsOf exampleTransactions).allTransactions.length
    ∧ (updateSummaryStats (historyOf exampleTransactions)).approved
          + (updateSummaryStats (historyOf exampleTransactions)).review
          + (updateSummaryStats (historyOf exampleTransactions)).declined
        = (updateSummaryStats (historyOf exampleTransactions)).total :=
  ⟨(statusCounts_sum_known sampleBuiltins (analyticsOf exampleTransactions)
      (historyOf exampleTransactions)).2.2.1 (by decide),
    (statusCounts_sum_known sampleBuiltins (analyticsOf exampleTransactions)
      (historyOf exampleTransactions)).2.2.2 (by decide)⟩

/-! ## Lemmas on `stableSort` and `arraySort` -/

theorem sortedInsert_perm {α : Type} (cmp : α → α → JsNumber) (a : α) (l : List α) :
    (sortedInsert cmp a l).Perm (a :: l) := by
  induction l with
  | nil => exact List.Perm.refl _
  | cons b l ih =>
    unfold sortedInsert
    split
    · exact (List.Perm.cons b ih).trans (List.Perm.swap a b l)
    · exact List.Perm.refl _

theorem stableSort_perm {α : Type} (cmp : α → α → JsNumber) (l : List α) :
    (stableSort cmp l).Perm l := by
  induction l with
  | nil => exact List.Perm.refl _
  | cons a l ih =>
    exact (sortedInsert_perm cmp a (stableSort cmp l)).trans (List.Perm.cons a ih)

theorem arraySort_perm {α : Type} (B : Builtins) (cmp : α → α → JsNumber) (l : List α) :
    (arraySort B cmp l).Perm l := by
  unfold arraySort
  split
  · exact stableSort_perm cmp l
  · exact B.sort_perm cmp l

theorem arraySort_eq_stableSort {α : Type} (B : Builtins) (cmp : α → α → JsNumber) (l : List α)
    (h : ∀ a ∈ l, ∀ b ∈ l, (cmp a b).isSome = true) :
    arraySort B cmp l = stableSort cmp l := by
  have hall : comparesAll cmp l = true := by
    unfold comparesAll
    rw [List.all_eq_true]
    intro a ha
    rw [List.all_eq_true]
    exact fun b hb => h a ha b hb
  simp only [arraySort, hall, if_true]

/-! ## Lemmas on the text operations -/

theorem toList_eq_nil_iff (s : String) : s.toList = [] ↔ s = "" := by
  constructor
  · intro h; exact String.ext h
  · intro h; subst h; rfl

theorem strLe_iff (a b : String) : strLe a b = true ↔ a.toList ≤ b.toList := by
  simp [strLe]

theorem matchesDateRange_iff (dateFrom dateTo : String) (tx : Transaction) :
    matchesDateRange dateFrom dateTo tx = true ↔ DateInRange dateFrom dateTo tx := by
  simp [matchesDateRange, DateInRange, strLe]

theorem matchesStatus_iff (B : Builtins) (statusFilter : String) (tx : Transaction) :
    matchesStatus B statusFilter tx = true ↔ StatusAccepted B statusFilter tx := by
  have h0 : trim (B.toLowerCase "") = "" := by rw [B.toLowerCase_empty]; decide
  have hf : filterStatus B statusFilter = trim (B.toLowerCase statusFilter) := by
    unfold filterStatus
    by_cases h : statusFilter = ""
    · subst h; simp [h0]
    · simp [h]
  have ht : transactionStatus B tx = normalizedStatus B tx.result.status := by
    unfold transactionStatus normalizedStatus
    cases hst : tx.result.status with
    | none => simp [truthy]
    | some st =>
      by_cases h : st = ""
      · subst h; simp [truthy, h0]
      · simp [truthy, h]
  simp [matchesStatus, StatusAccepted, hf, ht]

theorem matchesSearch_empty (B : Builtins) (tx : Transaction) :
    matchesSearch B (B.toLowerCase "") tx = true := by
  have h0 : B.toLowerCase "" = "" := B.toLowerCase_empty
  simp [matchesSearch, h0]

theorem matchesStatus_empty (B : Builtins) (tx : Transaction) :
    matchesStatus B "" tx = true := by
  simp [matchesStatus, filterStatus]

theorem matchesFilters_dateControls (B : Builtins) (dateFrom dateTo : String)
    (sortBy : Option String) (tx : Transaction) :
    matchesFilters B (dateControls dateFrom dateTo sortBy) tx
      = matchesDateRange dateFrom dateTo tx := by
  simp [matchesFilters, dateControls, matchesSearch_empty, matchesStatus_empty]

/-! ## Filtering (C2, C3, C5, C8) -/

/-- C2: with an empty search box, no status filter and no dates, whatever
the sort key, `filterHistory` leaves in `filteredTransactions` a permutation
of `allTransactions`: every transaction with the same multiplicity. -/
theorem filterHistory_no_criteria_perm (B : Builtins) (s : HistoryState) (sortBy : Option String) :
    (filterHistory B (dateControls "" "" sortBy) s).filteredTransactions.Perm s.allTransactions := by
  unfold filterHistory
  refine (arraySort_perm B _ _).trans ?_
  have : s.allTransactions.filter (matchesFilters B (dateControls "" "" sortBy))
      = s.allTransactions := by
    rw [List.filter_eq_self]
    intro tx _
    rw [matchesFilters_dateControls]
    simp [matchesDateRange]
  simp only [this]
  exact List.Perm.refl _

theorem mem_filterHistory (B : Builtins) (c : Controls) (s : HistoryState) (tx : Transaction) :
    tx ∈ (filterHistory B c s).filteredTransactions
      ↔ tx ∈ s.allTransactions ∧ matchesFilters B c tx = true := by
  unfold filterHistory
  rw [(arraySort_perm B _ _).mem_iff, List.mem_filter]

theorem filterHistory_perm_filter (B : Builtins) (c : Controls) (s : HistoryState) :
    (filterHistory B c s).filteredTransactions.Perm
      (s.allTransactions.filter (matchesFilters B c)) := by
  unfold filterHistory
  exact arraySort_perm B _ _

theorem dateInRange_same (D : String) (hD : D ≠ "") (tx : Transaction) :
    DateInRange D D tx ↔ datePortion tx.timestamp = D := by
  unfold DateInRange
  constructor
  · rintro ⟨h1, h2⟩
    have h1' := h1.resolve_left hD
    have h2' := h2.resolve_left hD
    exact String.ext (le_antisymm h2' h1')
  · intro h
    rw [h]
    exact ⟨Or.inr (le_refl _), Or.inr (le_refl _)⟩

/-- C3: with an empty search box and no status filter, a transaction is in
the output of `filterHistory` iff it is in `allTransactions` and the date
portion of its timestamp is lexicographically at least `dateFrom` when that is
given and at most `dateTo` when that is given; each such transaction occurs as
often as in `allTransactions`; and when both dates are the same date `D`, the
output is exactly the transactions whose date portion equals `D`. -/
theorem filterHistory_date_range (B : Builtins) (s : HistoryState) (dateFrom dateTo D : String)
    (sortBy : Option String) :
    (∀ tx, tx ∈ (filterHistory B (dateControls dateFrom dateTo sortBy) s).filteredTransactions
        ↔ tx ∈ s.allTransactions ∧ DateInRange dateFrom dateTo tx)
    ∧ (filterHistory B (dateControls dateFrom dateTo sortBy) s).filteredTransactions.Perm
        (s.allTransactions.filter (fun tx => decide (DateInRange dateFrom dateTo tx)))
    ∧ (D ≠ "" →
        (filterHistory B (dateControls D D sortBy) s).filteredTransactions.Perm
          (s.allTransactions.filter (fun tx => decide (datePortion tx.timestamp = D)))) := by
  have hfun : ∀ a b : String, matchesFilters B (dateControls a b sortBy)
      = fun tx => decide (DateInRange a b tx) := by
    intro a b
    funext tx
    rw [matchesFilters_dateControls, Bool.eq_iff_iff, matchesDateRange_iff]
    simp
  refine ⟨?_, ?_, ?_⟩
  · intro tx
    rw [mem_filterHistory, matchesFilters_dateControls, matchesDateRange_iff]
  · have := filterHistory_perm_filter B (dateControls dateFrom dateTo sortBy) s
    rwa [hfun] at this
  · intro hD
    have := filterHistory_perm_filter B (dateControls D D sortBy) s
    rw [hfun] at this
    have hfun2 : (fun tx => decide (DateInRange D D tx))
        = fun tx => decide (datePortion tx.timestamp = D) := by
      funext tx
      simp only [dateInRange_same D hD]
    rwa [hfun2] at this

/-- C3 on the example of the specification: with both dates set to
2024-01-02 the output is the single transaction dated 2024-01-02. -/
theorem filterHistory_date_range_witness :
    (filterHistory sampleBuiltins (dateControls "2024-01-02" "2024-01-02" none)
        (historyOf exampleTransactions)).filteredTransactions.Perm
      ((historyOf exampleTransactions).allTransactions.filter
        (fun tx => decide (datePortion tx.timestamp = "2024-01-02"))) :=
  (filterHistory_date_range sampleBuiltins (historyOf exampleTransactions) "" "" "2024-01-02"
    none).2.2 (by decide)

/-- C5: the status test of `filterHistory` holds iff the filter is empty once
lower-cased and trimmed or equals the status of the transaction, both
lower-cased and trimmed; and the output of `filterHistory` holds exactly the
transactions of `allTransactions` that pass the search test, the status test
and the date test together, each as often as in `allTransactions`. -/
theorem filterHistory_status_and_conjunction (B : Builtins) (c : Controls) (s : HistoryState) :
    (∀ tx, matchesStatus B c.statusFilter tx = true ↔ StatusAccepted B c.statusFilter tx)
    ∧ (∀ tx, tx ∈ (filterHistory B c s).filteredTransactions
        ↔ tx ∈ s.allTransactions
          ∧ matchesSearch B (B.toLowerCase c.searchInput) tx = true
          ∧ StatusAccepted B c.statusFilter tx
          ∧ DateInRange c.dateFrom c.dateTo tx)
    ∧ (filterHistory B c s).filteredTransactions.Perm
        (s.allTransactions.filter (fun tx =>
          matchesSearch B (B.toLowerCase c.searchInput) tx
            && decide (StatusAccepted B c.statusFilter tx)
            && decide (DateInRange c.dateFrom c.dateTo tx))) := by
  refine ⟨fun tx => matchesStatus_iff B _ tx, ?_, ?_⟩
  · intro tx
    rw [mem_filterHistory]
    simp only [matchesFilters, Bool.and_eq_true, matchesStatus_iff, matchesDateRange_iff]
    tauto
  · have := filterHistory_perm_filter B c s
    have hfun : matchesFilters B c = fun tx =>
        matchesSearch B (B.toLowerCase c.searchInput) tx
          && decide (StatusAccepted B c.statusFilter tx)
          && decide (DateInRange c.dateFrom c.dateTo tx) := by
      funext tx
      rw [Bool.eq_iff_iff]
      simp only [matchesFilters, Bool.and_eq_true, matchesStatus_iff, matchesDateRange_iff,
        decide_eq_true_eq]
    rwa [hfun] at this

/-- C8: `filterHistory` replaces `filteredTransactions` only: the list
`allTransactions` is the same list, with the same transactions in the same
order, and the other variables are unchanged; so filtering again with the
same criteria gives the same state. -/
theorem filterHistory_frame (B : Builtins) (c : Controls) (s : HistoryState) :
    (filterHistory B c s).allTransactions = s.allTransactions
    ∧ (filterHistory B c s).lastTransactionCount = s.lastTransactionCount
    ∧ (filterHistory B c s).autoRefreshInterval = s.autoRefreshInterval
    ∧ filterHistory B c (filterHistory B c s) = filterHistory B c s :=
  ⟨rfl, rfl, rfl, rfl⟩

/-! ## Search (C4) -/

/-- C4 fails on the code: for a transaction whose amount is the string "1E5"
and the search term "1E5", the search test of `filterHistory` is false, while
the term, compared without regard to case, occurs in the stringified amount.
The term is lower-cased to "1e5" and so is every other field that is
searched, but the amount text is not. -/
theorem matchesSearch_counterexample :
    matchesSearch sampleBuiltins (sampleBuiltins.toLowerCase "1E5")
        (sampleTx "1" "2024-01-01T09:00:00" (.text "1E5") 0 "approved") = false
    ∧ SearchAccepted sampleBuiltins "1E5"
        (sampleTx "1" "2024-01-01T09:00:00" (.text "1E5") 0 "approved") := by
  constructor
  · decide
  · unfold SearchAccepted
    refine Or.inr (Or.inr (Or.inr (Or.inr (Or.inr (Or.inl ⟨?_, ?_⟩)))))
    · decide
    · unfold containsIgnoringCase; decide

/-- The guard `input.amount && ...` on an amount that is the number 0: the
term "0" is not found although it occurs in the stringified amount "0". -/
theorem matchesSearch_zero_amount :
    matchesSearch sampleBuiltins (sampleBuiltins.toLowerCase "0")
        (sampleTx "1" "2024-01-01T09:00:00" (.number 0) 0 "approved") = false
    ∧ Amount.toString sampleBuiltins (.number 0) = "0"
    ∧ SearchAccepted sampleBuiltins "0"
        (sampleTx "1" "2024-01-01T09:00:00" (.number 0) 0 "approved") := by
  refine ⟨by decide, by decide, ?_⟩
  unfold SearchAccepted
  refine Or.inr (Or.inr (Or.inr (Or.inr (Or.inr (Or.inl ⟨?_, ?_⟩)))))
  · decide
  · unfold containsIgnoringCase; decide

/-! ## Sorting (C6, C7) -/

theorem sortedInsert_filter {α κ : Type} [DecidableEq κ] (cmp : α → α → JsNumber) (key : α → κ)
    (hkey : ∀ a b, key a = key b → (cmp a b).positive = false) (v : κ) (a : α) (l : List α) :
    (sortedInsert cmp a l).filter (fun x => decide (key x = v))
      = (a :: l).filter (fun x => decide (key x = v)) := by
  induction l with
  | nil => rfl
  | cons b l ih =>
    unfold sortedInsert
    by_cases h : (cmp a b).positive = true
    · rw [if_pos h]
      have hab : key a ≠ key b := fun e => by
        have := hkey a b e
        rw [this] at h
        exact Bool.false_ne_true h
      rw [List.filter_cons, ih]
      by_cases ha : key a = v
      · have hb : key b ≠ v := fun e => hab (ha.trans e.symm)
        simp [List.filter_cons, ha, hb]
      · simp [List.filter_cons, ha]
    · rw [if_neg h]

theorem stableSort_filter {α κ : Type} [DecidableEq κ] (cmp : α → α → JsNumber) (key : α → κ)
    (hkey : ∀ a b, key a = key b → (cmp a b).positive = false) (v : κ) (l : List α) :
    (stableSort cmp l).filter (fun x => decide (key x = v))
      = l.filter (fun x => decide (key x = v)) := by
  induction l with
  | nil => rfl
  | cons a l ih =>
    show (sortedInsert cmp a (stableSort cmp l)).filter _ = _
    rw [sortedInsert_filter cmp key hkey, List.filter_cons, List.filter_cons, ih]

theorem positive_sub (x y : JsNumber) :
    (x.sub y).positive = true ↔ ∃ p q, x = some p ∧ y = some q ∧ q < p := by
  cases x with
  | none => simp [JsNumber.sub, JsNumber.positive]
  | some p =>
    cases y with
    | none => simp [JsNumber.sub, JsNumber.positive]
    | some q => simp [JsNumber.sub, JsNumber.positive]

theorem sortComparator_eq (B : Builtins) (sortBy : String) (hkey : sortBy ∈ sortKeys)
    (a b : Transaction) :
    sortComparator B sortBy a b =
      if descending sortBy then (sortField B sortBy b).sub (sortField B sortBy a)
      else (sortField B sortBy a).sub (sortField B sortBy b) := by
  simp only [sortKeys, List.mem_cons, List.mem_singleton, List.not_mem_nil, or_false] at hkey
  rcases hkey with h | h | h | h | h | h <;> subst h <;>
    simp [sortComparator, sortField, descending, JsNumber.sub]

theorem sortComparator_same_field (B : Builtins) (sortBy : String) (hkey : sortBy ∈ sortKeys)
    (a b : Transaction) (h : sortField B sortBy a = sortField B sortBy b) :
    (sortComparator B sortBy a b).positive = false := by
  rw [sortComparator_eq B sortBy hkey, Bool.eq_false_iff]
  intro h'
  cases hd : descending sortBy <;> simp only [hd, if_true, if_false, Bool.false_eq_true] at h'
  all_goals
    obtain ⟨p, q, hp, hq, hlt⟩ := (positive_sub _ _).mp h'
    have hpq : some p = some q := by
      first
        | exact hp.symm.trans (h.trans hq)
        | exact hp.symm.trans (h.symm.trans hq)
    cases hpq
    exact lt_irrefl _ hlt

theorem sortedInsert_pairwise {α : Type} (cmp : α → α → JsNumber) (R : α → α → Prop)
    (htr : ∀ a b c, R a b → R b c → R a c) (a : α) (l : List α) (hl : l.Pairwise R)
    (h1 : ∀ b ∈ l, (cmp a b).positive = true → R b a)
    (h2 : ∀ b ∈ l, (cmp a b).positive = false → R a b) :
    (sortedInsert cmp a l).Pairwise R := by
  induction l with
  | nil => simp [sortedInsert]
  | cons b l ih =>
    unfold sortedInsert
    have hb := List.pairwise_cons.mp hl
    by_cases h : (cmp a b).positive = true
    · rw [if_pos h]
      refine List.pairwise_cons.mpr ⟨?_, ?_⟩
      · intro x hx
        rcases List.mem_cons.mp ((sortedInsert_perm cmp a l).mem_iff.mp hx) with hxa | hxl
        · subst hxa
          exact h1 b (List.mem_cons_self _ _) h
        · exact hb.1 x hxl
      · exact ih hb.2 (fun c hc => h1 c (List.mem_cons_of_mem _ hc))
          (fun c hc => h2 c (List.mem_cons_of_mem _ hc))
    · rw [if_neg h]
      have hab : R a b := h2 b (List.mem_cons_self _ _) (by simpa using h)
      refine List.pairwise_cons.mpr ⟨?_, hl⟩
      intro x hx
      rcases List.mem_cons.mp hx with hxb | hxl
      · subst hxb; exact hab
      · exact htr _ _ _ hab (hb.1 x hxl)

theorem stableSort_pairwise {α : Type} (cmp : α → α → JsNumber) (R : α → α → Prop)
    (htr : ∀ a b c, R a b → R b c → R a c) (l : List α)
    (h1 : ∀ a ∈ l, ∀ b ∈ l, (cmp a b).positive = true → R b a)
    (h2 : ∀ a ∈ l, ∀ b ∈ l, (cmp a b).positive = false → R a b) :
    (stableSort cmp l).Pairwise R := by
  induction l with
  | nil => simp [stableSort]
  | cons a l ih =>
    have ih' := ih
      (fun x hx y hy => h1 x (List.mem_cons_of_mem _ hx) y (List.mem_cons_of_mem _ hy))
      (fun x hx y hy => h2 x (List.mem_cons_of_mem _ hx) y (List.mem_cons_of_mem _ hy))
    refine sortedInsert_pairwise cmp R htr a _ ih' ?_ ?_
    · intro b hb
      exact h1 a (List.mem_cons_self _ _) b
        (List.mem_cons_of_mem _ ((stableSort_perm cmp l).mem_iff.mp hb))
    · intro b hb
      exact h2 a (List.mem_cons_self _ _) b
        (List.mem_cons_of_mem _ ((stableSort_perm cmp l).mem_iff.mp hb))

theorem sub_isSome (x y : JsNumber) (hx : x.isSome = true) (hy : y.isSome = true) :
    (x.sub y).isSome = true := by
  cases x with
  | none => simp at hx
  | some p =>
    cases y with
    | none => simp at hy
    | some q => simp [JsNumber.sub]

theorem sortComparator_isSome (B : Builtins) (sortBy : String) (hkey : sortBy ∈ sortKeys)
    (a b : Transaction) (ha : (sortField B sortBy a).isSome = true)
    (hb : (sortField B sortBy b).isSome = true) :
    (sortComparator B sortBy a b).isSome = true := by
  rw [sortComparator_eq B sortBy hkey]
  cases descending sortBy
  · simpa using sub_isSome _ _ ha hb
  · simpa using sub_isSome _ _ hb ha

theorem arraySort_sortComparator (B : Builtins) (sortBy : String) (hkey : sortBy ∈ sortKeys)
    (l : List Transaction) (hnum : ∀ tx ∈ l, (sortField B sortBy tx).isSome = true) :
    arraySort B (sortComparator B sortBy) l = stableSort (sortComparator B sortBy) l :=
  arraySort_eq_stableSort B _ l
    (fun a ha b hb => sortComparator_isSome B sortBy hkey a b (hnum a ha) (hnum b hb))

theorem keyOrdered_trans (B : Builtins) (sortBy : String) (a b c : Transaction)
    (hab : KeyOrdered B sortBy a b) (hbc : KeyOrdered B sortBy b c) : KeyOrdered B sortBy a c := by
  obtain ⟨x, y, hx, hy, hxy⟩ := hab
  obtain ⟨y', z, hy', hz, hyz⟩ := hbc
  rw [hy] at hy'
  cases hy'
  refine ⟨x, z, hx, hz, ?_⟩
  cases hd : descending sortBy <;> simp only [hd, if_true, if_false, Bool.false_eq_true] at hxy hyz ⊢
  · exact le_trans hxy hyz
  · exact le_trans hyz hxy

theorem keyOrdered_of_positive (B : Builtins) (sortBy : String) (hkey : sortBy ∈ sortKeys)
    (a b : Transaction) (h : (sortComparator B sortBy a b).positive = true) :
    KeyOrdered B sortBy b a := by
  rw [sortComparator_eq B sortBy hkey] at h
  cases hd : descending sortBy <;> simp only [hd, if_true, if_false, Bool.false_eq_true] at h ⊢
  · obtain ⟨p, q, hp, hq, hlt⟩ := (positive_sub _ _).mp h
    exact ⟨q, p, hq, hp, by simpa [hd] using le_of_lt hlt⟩
  · obtain ⟨p, q, hp, hq, hlt⟩ := (positive_sub _ _).mp h
    exact ⟨p, q, hp, hq, by simpa [hd] using le_of_lt hlt⟩

theorem keyOrdered_of_not_positive (B : Builtins) (sortBy : String) (hkey : sortBy ∈ sortKeys)
    (a b : Transaction) (ha : (sortField B sortBy a).isSome = true)
    (hb : (sortField B sortBy b).isSome = true)
    (h : (sortComparator B sortBy a b).positive = false) :
    KeyOrdered B sortBy a b := by
  obtain ⟨x, hx⟩ := Option.isSome_iff_exists.mp ha
  obtain ⟨y, hy⟩ := Option.isSome_iff_exists.mp hb
  refine ⟨x, y, hx, hy, ?_⟩
  rw [sortComparator_eq B sortBy hkey, Bool.eq_false_iff] at h
  cases hd : descending sortBy <;> simp only [hd, if_true, if_false, Bool.false_eq_true] at h ⊢
  · apply le_of_not_lt
    intro hlt
    exact h ((positive_sub _ _).mpr ⟨x, y, hx, hy, hlt⟩)
  · apply le_of_not_lt
    intro hlt
    exact h ((positive_sub _ _).mpr ⟨y, x, hy, hx, hlt⟩)

theorem arraySort_of_nan {α : Type} (B : Builtins) (cmp : α → α → JsNumber) (l : List α)
    (a b : α) (ha : a ∈ l) (hb : b ∈ l) (h : cmp a b = none) :
    arraySort B cmp l = B.sort cmp l := by
  have hall : comparesAll cmp l = false := by
    rw [Bool.eq_false_iff]
    intro hall
    unfold comparesAll at hall
    rw [List.all_eq_true] at hall
    have h1 := hall a ha
    rw [List.all_eq_true] at h1
    have h2 := h1 b hb
    rw [h] at h2
    exact Bool.false_ne_true h2
  simp only [arraySort, hall, Bool.false_eq_true, if_false]

theorem amountTx_number (id : String) (x : ℚ) :
    (amountTx id (.number x)).input.amount.toNumber sampleBuiltins = some x := rfl

theorem amountTx_missing (id : String) :
    (amountTx id .missing).input.amount.toNumber sampleBuiltins = none := rfl

theorem amountTx_abc (id : String) :
    (amountTx id (.text "abc")).input.amount.toNumber sampleBuiltins = none := by
  show Amount.toNumber sampleBuiltins (.text "abc") = none
  decide

theorem filter_dateControls_empty (B : Builtins) (sortBy : Option String) (l : List Transaction) :
    l.filter (matchesFilters B (dateControls "" "" sortBy)) = l := by
  rw [List.filter_eq_self]
  intro tx _
  rw [matchesFilters_dateControls]
  simp [matchesDateRange]

theorem engineSort_mixedAmounts :
    engineSort (sortComparator sampleBuiltins "amount-asc") mixedAmounts
      = [amountTx "a" (.number 1), amountTx "b" (.text "abc"), amountTx "f" (.number 0),
         amountTx "g" (.number 5), amountTx "c" (.number 9), amountTx "d" .missing,
         amountTx "e" (.number 5)] := by
  have hcmp : ∀ a b, sortComparator sampleBuiltins "amount-asc" a b
      = (a.input.amount.toNumber sampleBuiltins).sub (b.input.amount.toNumber sampleBuiltins) := by
    intro a b; simp [sortComparator]
  simp [mixedAmounts, engineSort, takeRun, binaryInsertion, searchIndex, insertAt, hcmp,
    amountTx_number, amountTx_missing, amountTx_abc, JsNumber.sub, JsNumber.negative]
  norm_num

/-- C7, as stated, fails when a sort field is not a number. With the sort of
the V8 engine and the seven transactions a to g of amounts 1, "abc", 9, none,
5, 0 and 5, sorting by amount-asc stores the order a, b, f, g, c, d, e: the
transactions e and g of amount 5 have changed places, and a stands directly
before b, whose amount is not a number, so that the two are not in the order
of the key (the amount 1 also comes before the amount 0, and 9 before 5). -/
theorem filterHistory_stable_sort_counterexample :
    sortByValue (dateControls "" "" (some "amount-asc")) ∈ sortKeys
    ∧ (filterHistory sampleBuiltins (dateControls "" "" (some "amount-asc"))
        (historyOf mixedAmounts)).filteredTransactions
      = [amountTx "a" (.number 1), amountTx "b" (.text "abc"), amountTx "f" (.number 0),
         amountTx "g" (.number 5), amountTx "c" (.number 9), amountTx "d" .missing,
         amountTx "e" (.number 5)]
    ∧ (filterHistory sampleBuiltins (dateControls "" "" (some "amount-asc"))
        (historyOf mixedAmounts)).filteredTransactions.filter
          (fun tx => decide (sortField sampleBuiltins "amount-asc" tx = some 5))
      = [amountTx "g" (.number 5), amountTx "e" (.number 5)]
    ∧ ((historyOf mixedAmounts).allTransactions.filter
          (matchesFilters sampleBuiltins (dateControls "" "" (some "amount-asc")))).filter
          (fun tx => decide (sortField sampleBuiltins "amount-asc" tx = some 5))
      = [amountTx "e" (.number 5), amountTx "g" (.number 5)]
    ∧ ¬ List.Chain' (KeyOrdered sampleBuiltins "amount-asc")
        (filterHistory sampleBuiltins (dateControls "" "" (some "amount-asc"))
          (historyOf mixedAmounts)).filteredTransactions := by
  have hview : (filterHistory sampleBuiltins (dateControls "" "" (some "amount-asc"))
        (historyOf mixedAmounts)).filteredTransactions
      = [amountTx "a" (.number 1), amountTx "b" (.text "abc"), amountTx "f" (.number 0),
         amountTx "g" (.number 5), amountTx "c" (.number 9), amountTx "d" .missing,
         amountTx "e" (.number 5)] := by
    unfold filterHistory
    simp only [filter_dateControls_empty, historyOf]
    rw [arraySort_of_nan sampleBuiltins _ mixedAmounts (amountTx "a" (.number 1))
      (amountTx "d" .missing) (by simp [mixedAmounts]) (by simp [mixedAmounts]) (by
        simp [sortByValue, dateControls, sortComparator, amountTx_number, amountTx_missing,
          JsNumber.sub])]
    exact engineSort_mixedAmounts
  have hfield : ∀ tx : Transaction, sortField sampleBuiltins "amount-asc" tx
      = tx.input.amount.toNumber sampleBuiltins := by
    intro tx; simp [sortField]
  refine ⟨by decide, hview, ?_, ?_, ?_⟩
  · rw [hview]
    simp [List.filter, hfield, amountTx_number, amountTx_missing, amountTx_abc]
  · simp only [filter_dateControls_empty, historyOf, mixedAmounts]
    simp [List.filter, hfield, amountTx_number, amountTx_missing, amountTx_abc]
  · rw [hview]
    intro h
    obtain ⟨x, y, _, hy, _⟩ := (List.chain'_cons.mp h).1
    rw [hfield, amountTx_abc] at hy
    cases hy

/-- C7, amended: when the sort key is one of the six keys and the field of
the key (time value of the timestamp, fraud score, or amount) is a number on
every transaction that passes the filters, the list that `filterHistory`
stores is the stable sort of the filtered list by that key: it is a
permutation of the filtered list, every element is in the direction of the
key with every later one (so any two adjacent elements are), and the elements
whose field has a given value come in the order they have in the filtered
list. -/
theorem filterHistory_stable_sort (B : Builtins) (c : Controls) (s : HistoryState)
    (hkey : sortByValue c ∈ sortKeys)
    (hnum : ∀ tx ∈ s.allTransactions, matchesFilters B c tx = true →
      (sortField B (sortByValue c) tx).isSome = true) :
    (filterHistory B c s).filteredTransactions.Perm
        (s.allTransactions.filter (matchesFilters B c))
    ∧ List.Pairwise (KeyOrdered B (sortByValue c)) (filterHistory B c s).filteredTransactions
    ∧ List.Chain' (KeyOrdered B (sortByValue c)) (filterHistory B c s).filteredTransactions
    ∧ ∀ v : JsNumber,
        (filterHistory B c s).filteredTransactions.filter
            (fun tx => decide (sortField B (sortByValue c) tx = v))
          = (s.allTransactions.filter (matchesFilters B c)).filter
            (fun tx => decide (sortField B (sortByValue c) tx = v)) := by
  have hnum' : ∀ tx ∈ s.allTransactions.filter (matchesFilters B c),
      (sortField B (sortByValue c) tx).isSome = true := by
    intro tx htx
    obtain ⟨h1, h2⟩ := List.mem_filter.mp htx
    exact hnum tx h1 h2
  have hsort : (filterHistory B c s).filteredTransactions
      = stableSort (sortComparator B (sortByValue c))
          (s.allTransactions.filter (matchesFilters B c)) := by
    unfold filterHistory
    exact arraySort_sortComparator B _ hkey _ hnum'
  have hpair : List.Pairwise (KeyOrdered B (sortByValue c))
      (filterHistory B c s).filteredTransactions := by
    rw [hsort]
    refine stableSort_pairwise _ _ (keyOrdered_trans B _) _ ?_ ?_
    · intro a _ b _ h
      exact keyOrdered_of_positive B _ hkey a b h
    · intro a ha b hb h
      exact keyOrdered_of_not_positive B _ hkey a b (hnum' a ha) (hnum' b hb) h
  refine ⟨filterHistory_perm_filter B c s, hpair, hpair.chain', ?_⟩
  intro v
  rw [hsort]
  exact stableSort_filter _ (sortField B (sortByValue c))
    (sortComparator_same_field B _ hkey) v _

/-- C7, amended, on the example of the specification, sorted by descending
amount: the four amounts are numbers, and the stored list is in descending
order of the amounts. -/
theorem filterHistory_stable_sort_witness :
    sortByValue (dateControls "" "" (some "amount-desc")) ∈ sortKeys
    ∧ (∀ tx ∈ (historyOf exampleTransactions).allTransactions,
        (sortField sampleBuiltins (sortByValue (dateControls "" "" (some "amount-desc")))
          tx).isSome = true)
    ∧ List.Pairwise
        (KeyOrdered sampleBuiltins (sortByValue (dateControls "" "" (some "amount-desc"))))
        (filterHistory sampleBuiltins (dateControls "" "" (some "amount-desc"))
          (historyOf exampleTransactions)).filteredTransactions :=
  ⟨by decide,
    by
      intro tx htx
      simp only [historyOf, exampleTransactions, List.mem_cons, List.mem_singleton,
        List.not_mem_nil, or_false] at htx
      rcases htx with h | h | h | h <;> subst h <;> rfl,
    (filterHistory_stable_sort sampleBuiltins (dateControls "" "" (some "amount-desc"))
      (historyOf exampleTransactions) (by decide)
      (by
        intro tx htx _
        simp only [historyOf, exampleTransactions, List.mem_cons, List.mem_singleton,
          List.not_mem_nil, or_false] at htx
        rcases htx with h | h | h | h <;> subst h <;> rfl)).2.1⟩

/-- C6, as stated, fails: for two different transactions with the same
amount, sorting by amount-asc and reversing puts the second one first, while
sorting by amount-desc keeps them in their order. -/
theorem amount_sort_reverse_counterexample :
    (arraySort sampleBuiltins (sortComparator sampleBuiltins "amount-asc")
        [sampleTx "1" "2024-01-01T09:00:00" (.number 100) 0 "approved",
         sampleTx "2" "2024-01-01T10:00:00" (.number 100) 0 "approved"]).reverse
      = [sampleTx "2" "2024-01-01T10:00:00" (.number 100) 0 "approved",
         sampleTx "1" "2024-01-01T09:00:00" (.number 100) 0 "approved"]
    ∧ arraySort sampleBuiltins (sortComparator sampleBuiltins "amount-desc")
        [sampleTx "1" "2024-01-01T09:00:00" (.number 100) 0 "approved",
         sampleTx "2" "2024-01-01T10:00:00" (.number 100) 0 "approved"]
      = [sampleTx "1" "2024-01-01T09:00:00" (.number 100) 0 "approved",
         sampleTx "2" "2024-01-01T10:00:00" (.number 100) 0 "approved"]
    ∧ (arraySort sampleBuiltins (sortComparator sampleBuiltins "amount-asc")
        [sampleTx "1" "2024-01-01T09:00:00" (.number 100) 0 "approved",
         sampleTx "2" "2024-01-01T10:00:00" (.number 100) 0 "approved"]).reverse
      ≠ arraySort sampleBuiltins (sortComparator sampleBuiltins "amount-desc")
        [sampleTx "1" "2024-01-01T09:00:00" (.number 100) 0 "approved",
         sampleTx "2" "2024-01-01T10:00:00" (.number 100) 0 "approved"] := by
  have hasc : (arraySort sampleBuiltins (sortComparator sampleBuiltins "amount-asc")
        [sampleTx "1" "2024-01-01T09:00:00" (.number 100) 0 "approved",
         sampleTx "2" "2024-01-01T10:00:00" (.number 100) 0 "approved"]).reverse
      = [sampleTx "2" "2024-01-01T10:00:00" (.number 100) 0 "approved",
         sampleTx "1" "2024-01-01T09:00:00" (.number 100) 0 "approved"] := by
    simp [arraySort, comparesAll, stableSort, sortedInsert, sortComparator, sampleTx, Amount.toNumber, JsNumber.sub,
      JsNumber.positive]
  have hdesc : arraySort sampleBuiltins (sortComparator sampleBuiltins "amount-desc")
        [sampleTx "1" "2024-01-01T09:00:00" (.number 100) 0 "approved",
         sampleTx "2" "2024-01-01T10:00:00" (.number 100) 0 "approved"]
      = [sampleTx "1" "2024-01-01T09:00:00" (.number 100) 0 "approved",
         sampleTx "2" "2024-01-01T10:00:00" (.number 100) 0 "approved"] := by
    simp [arraySort, comparesAll, stableSort, sortedInsert, sortComparator, sampleTx, Amount.toNumber, JsNumber.sub,
      JsNumber.positive]
  refine ⟨hasc, hdesc, ?_⟩
  rw [hasc, hdesc]
  decide

theorem stableSort_amount_reverse (B : Builtins) (l : List Transaction)
    (hnum : ∀ tx ∈ l, ∃ x, tx.input.amount.toNumber B = some x)
    (hdist : l.Pairwise (fun a b => a.input.amount.toNumber B ≠ b.input.amount.toNumber B)) :
    (stableSort (sortComparator B "amount-asc") l).reverse
      = stableSort (sortComparator B "amount-desc") l := by
  have hasc : ∀ a b, sortComparator B "amount-asc" a b
      = (a.input.amount.toNumber B).sub (b.input.amount.toNumber B) := by
    intro a b; simp [sortComparator]
  have hdesc : ∀ a b, sortComparator B "amount-desc" a b
      = (b.input.amount.toNumber B).sub (a.input.amount.toNumber B) := by
    intro a b; simp [sortComparator]
  have htr : ∀ a b c : Transaction,
      (b.input.amount.toNumber B).getD 0 ≤ (a.input.amount.toNumber B).getD 0 →
      (c.input.amount.toNumber B).getD 0 ≤ (b.input.amount.toNumber B).getD 0 →
      (c.input.amount.toNumber B).getD 0 ≤ (a.input.amount.toNumber B).getD 0 :=
    fun a b c h1 h2 => le_trans h2 h1
  have htr' : ∀ a b c : Transaction,
      (a.input.amount.toNumber B).getD 0 ≤ (b.input.amount.toNumber B).getD 0 →
      (b.input.amount.toNumber B).getD 0 ≤ (c.input.amount.toNumber B).getD 0 →
      (a.input.amount.toNumber B).getD 0 ≤ (c.input.amount.toNumber B).getD 0 :=
    fun a b c h1 h2 => le_trans h1 h2
  have h1 : (stableSort (sortComparator B "amount-asc") l).Pairwise
      (fun a b => (a.input.amount.toNumber B).getD 0 ≤ (b.input.amount.toNumber B).getD 0) := by
    refine stableSort_pairwise _ _ htr' l ?_ ?_
    · intro a _ b _ h
      rw [hasc] at h
      obtain ⟨p, q, hp, hq, hlt⟩ := (positive_sub _ _).mp h
      simp only [hp, hq, Option.getD_some]
      exact le_of_lt hlt
    · intro a ha b hb h
      rw [hasc, Bool.eq_false_iff] at h
      obtain ⟨p, hp⟩ := hnum a ha
      obtain ⟨q, hq⟩ := hnum b hb
      simp only [hp, hq, Option.getD_some]
      exact le_of_not_lt (fun hlt => h ((positive_sub _ _).mpr ⟨p, q, hp, hq, hlt⟩))
  have h2 : (stableSort (sortComparator B "amount-desc") l).Pairwise
      (fun a b => (b.input.amount.toNumber B).getD 0 ≤ (a.input.amount.toNumber B).getD 0) := by
    refine stableSort_pairwise _ _ htr l ?_ ?_
    · intro a _ b _ h
      rw [hdesc] at h
      obtain ⟨p, q, hp, hq, hlt⟩ := (positive_sub _ _).mp h
      simp only [hp, hq, Option.getD_some]
      exact le_of_lt hlt
    · intro a ha b hb h
      rw [hdesc, Bool.eq_false_iff] at h
      obtain ⟨p, hp⟩ := hnum a ha
      obtain ⟨q, hq⟩ := hnum b hb
      simp only [hp, hq, Option.getD_some]
      exact le_of_not_lt (fun hlt => h ((positive_sub _ _).mpr ⟨q, p, hq, hp, hlt⟩))
  have hperm : (stableSort (sortComparator B "amount-asc") l).reverse.Perm
      (stableSort (sortComparator B "amount-desc") l) :=
    ((List.reverse_perm _).trans (stableSort_perm _ l)).trans (stableSort_perm _ l).symm
  refine List.Perm.eq_of_sorted ?_ (List.pairwise_reverse.mpr h1) h2 hperm
  intro a b ha hb hab hba
  have ha' : a ∈ l := (stableSort_perm _ l).mem_iff.mp (List.mem_reverse.mp ha)
  have hb' : b ∈ l := (stableSort_perm _ l).mem_iff.mp hb
  by_contra hne
  have hsym : Symmetric (fun a b : Transaction =>
      a.input.amount.toNumber B ≠ b.input.amount.toNumber B) := fun _ _ h => h.symm
  have hd := hdist.forall hsym ha' hb' hne
  obtain ⟨p, hp⟩ := hnum a ha'
  obtain ⟨q, hq⟩ := hnum b hb'
  simp only [hp, hq, Option.getD_some] at hab hba
  apply hd
  rw [hp, hq, le_antisymm hba hab]

/-- C6, amended: for a list whose amounts are all numbers and pairwise
different, sorting by amount-asc and reversing gives the same sequence as
sorting by amount-desc. -/
theorem amount_sort_reverse (B : Builtins) (l : List Transaction)
    (hnum : ∀ tx ∈ l, ∃ x, tx.input.amount.toNumber B = some x)
    (hdist : l.Pairwise (fun a b => a.input.amount.toNumber B ≠ b.input.amount.toNumber B)) :
    (arraySort B (sortComparator B "amount-asc") l).reverse
      = arraySort B (sortComparator B "amount-desc") l := by
  have hsome : ∀ tx ∈ l, (tx.input.amount.toNumber B).isSome = true := by
    intro tx htx
    obtain ⟨x, hx⟩ := hnum tx htx
    rw [hx]
    rfl
  rw [arraySort_sortComparator B "amount-asc" (by decide) l hsome,
    arraySort_sortComparator B "amount-desc" (by decide) l hsome]
  exact stableSort_amount_reverse B l hnum hdist

/-- C6, amended, on the example of the specification, whose amounts are the
numbers 100, 200, 300 and 400. -/
theorem amount_sort_reverse_witness :
    (arraySort sampleBuiltins (sortComparator sampleBuiltins "amount-asc") exampleTransactions).reverse
      = arraySort sampleBuiltins (sortComparator sampleBuiltins "amount-desc") exampleTransactions :=
  amount_sort_reverse sampleBuiltins exampleTransactions
    (by
      intro tx htx
      simp only [exampleTransactions, List.mem_cons, List.mem_singleton, List.not_mem_nil,
        or_false] at htx
      rcases htx with h | h | h | h <;> subst h <;> exact ⟨_, rfl⟩)
    (by
      simp [exampleTransactions, sampleTx, Amount.toNumber])

/-! ## In-place sort of the analytics view (C9) -/

/-- C9 fails on the code: for the list holding a transaction with fraud score
1/10 followed by one with fraud score 9/10, `generateInsights` leaves
`analyticsData.allTransactions` with the two transactions in the opposite
order, because it sorts that array in place. -/
theorem generateInsights_reorders_source :
    (generateInsights sampleBuiltins
        (analyticsOf [sampleTx "1" "2024-01-01T09:00:00" (.number 100) (1 / 10) "approved",
          sampleTx "2" "2024-01-01T10:00:00" (.number 200) (9 / 10) "declined"])).allTransactions
      = [sampleTx "2" "2024-01-01T10:00:00" (.number 200) (9 / 10) "declined",
         sampleTx "1" "2024-01-01T09:00:00" (.number 100) (1 / 10) "approved"]
    ∧ (generateInsights sampleBuiltins
        (analyticsOf [sampleTx "1" "2024-01-01T09:00:00" (.number 100) (1 / 10) "approved",
          sampleTx "2" "2024-01-01T10:00:00" (.number 200) (9 / 10) "declined"])).allTransactions
      ≠ (analyticsOf [sampleTx "1" "2024-01-01T09:00:00" (.number 100) (1 / 10) "approved",
          sampleTx "2" "2024-01-01T10:00:00" (.number 200) (9 / 10) "declined"]).allTransactions := by
  have h : (generateInsights sampleBuiltins
        (analyticsOf [sampleTx "1" "2024-01-01T09:00:00" (.number 100) (1 / 10) "approved",
          sampleTx "2" "2024-01-01T10:00:00" (.number 200) (9 / 10) "declined"])).allTransactions
      = [sampleTx "2" "2024-01-01T10:00:00" (.number 200) (9 / 10) "declined",
         sampleTx "1" "2024-01-01T09:00:00" (.number 100) (1 / 10) "approved"] := by
    simp only [generateInsights, analyticsOf, arraySort, comparesAll, stableSort, sortedInsert, byScoreDescending,
      JsNumber.positive, sampleTx]
    norm_num
  refine ⟨h, ?_⟩
  rw [h]
  simp [analyticsOf, sampleTx]

/-! ## Percentages on an empty list (C10) -/

/-- C10: when `allTransactions` is empty, the three percentages of
`updateSummaryStats` and the average fraud score of `updateDailySummary` are
the number 0 (not NaN, not a missing value); and whenever no transaction of
`allTransactions` is dated today, the average fraud score is the number 0. -/
theorem percentages_zero_on_empty (s : HistoryState) (nowIso : String) :
    (s.allTransactions = [] →
      (updateSummaryStats s).approvedPct = Shown.number (some 0)
      ∧ (updateSummaryStats s).reviewPct = Shown.number (some 0)
      ∧ (updateSummaryStats s).declinedPct = Shown.number (some 0)
      ∧ (updateDailySummary nowIso s).avgScore = Shown.number (some 0))
    ∧ ((∀ tx ∈ s.allTransactions, datePortion tx.timestamp ≠ datePortion nowIso) →
      (updateDailySummary nowIso s).avgScore = Shown.number (some 0)) := by
  constructor
  · intro h
    simp [updateSummaryStats, updateDailySummary, percentOf, h]
  · intro h
    have hnil : s.allTransactions.filter
        (fun tx => decide (datePortion tx.timestamp = datePortion nowIso)) = [] := by
      rw [List.filter_eq_nil_iff]
      intro tx htx
      simpa using h tx htx
    simp [updateDailySummary, hnil]

/-- C10 on the empty history, and on the example of the specification seen
on 2024-03-05, a day on which it has no transaction. -/
theorem percentages_zero_on_empty_witness :
    ((updateSummaryStats (historyOf [])).approvedPct = Shown.number (some 0)
      ∧ (updateSummaryStats (historyOf [])).reviewPct = Shown.number (some 0)
      ∧ (updateSummaryStats (historyOf [])).declinedPct = Shown.number (some 0)
      ∧ (updateDailySummary "2024-03-05T12:00:00.000Z" (historyOf [])).avgScore
          = Shown.number (some 0))
    ∧ (updateDailySummary "2024-03-05T12:00:00.000Z" (historyOf exampleTransactions)).avgScore
        = Shown.number (some 0) :=
  ⟨(percentages_zero_on_empty (historyOf []) "2024-03-05T12:00:00.000Z").1 rfl,
    (percentages_zero_on_empty (historyOf exampleTransactions) "2024-03-05T12:00:00.000Z").2
      (by decide)⟩

/-! ## Flattening of the fetched data (C12) -/

theorem foldl_push (target l : List Transaction) :
    l.foldl (fun target tx => target ++ [tx]) target = target ++ l := by
  induction l generalizing target with
  | nil => simp
  | cons tx l ih => simp [List.foldl_cons, ih]

theorem foldl_flatten (target : List Transaction) (h : HistoryByDate) :
    h.foldl (fun target entry => entry.2.foldl (fun target tx => target ++ [tx]) target) target
      = target ++ (h.map (fun entry => entry.2)).flatten := by
  induction h generalizing target with
  | nil => simp
  | cons entry h ih =>
    rw [List.foldl_cons, ih, foldl_push, List.map_cons, List.flatten_cons, List.append_assoc]

theorem flattenHistory_eq_join (h : HistoryByDate) :
    flattenHistory h = (h.map (fun entry => entry.2)).flatten := by
  unfold flattenHistory
  rw [foldl_flatten]
  rfl

/-- C12: the flattening step gives the concatenation of the groups in the
key order of the fetched object: its length is the sum of the lengths of the
groups, every transaction occurs as often as in all the groups together, and
for the empty object the result is the empty list. The step is a total
function: it raises no error. -/
theorem flattenHistory_concat (h : HistoryByDate) :
    flattenHistory h = (h.map (fun entry => entry.2)).flatten
    ∧ (flattenHistory h).length = (h.map (fun entry => entry.2.length)).sum
    ∧ (∀ tx, (flattenHistory h).count tx = (h.map (fun entry => entry.2.count tx)).sum)
    ∧ flattenHistory [] = [] := by
  refine ⟨flattenHistory_eq_join h, ?_, ?_, rfl⟩
  · rw [flattenHistory_eq_join, List.length_flatten, List.map_map]
    rfl
  · intro tx
    rw [flattenHistory_eq_join, List.count_flatten, List.map_map]
    rfl

/-! ## Loading and polling (C17, C18) -/

/-- C17 fails on the code: starting from the initial state of the page (both
lists empty) with no filter criteria, after `loadHistory` has fetched one
transaction `allTransactions` holds it but `filteredTransactions` is still
empty, while filtering and sorting the new `allTransactions` gives that
transaction: `loadHistory` calls `displayHistory`, not `filterHistory`, and
`displayHistory` shows no group. -/
theorem loadHistory_keeps_stale_view :
    (loadHistory sampleBuiltins
        (.ok [("2024-01-01", [sampleTx "1" "2024-01-01T09:00:00" (.number 100) 0 "approved"])])
        (historyOf [])).allTransactions
      = [sampleTx "1" "2024-01-01T09:00:00" (.number 100) 0 "approved"]
    ∧ (loadHistory sampleBuiltins
        (.ok [("2024-01-01", [sampleTx "1" "2024-01-01T09:00:00" (.number 100) 0 "approved"])])
        (historyOf [])).filteredTransactions
      = []
    ∧ displayHistory sampleBuiltins
        (loadHistory sampleBuiltins
          (.ok [("2024-01-01", [sampleTx "1" "2024-01-01T09:00:00" (.number 100) 0 "approved"])])
          (historyOf []))
      = { groups := [], completed := true }
    ∧ (filterHistory sampleBuiltins (dateControls "" "" none)
        (loadHistory sampleBuiltins
          (.ok [("2024-01-01", [sampleTx "1" "2024-01-01T09:00:00" (.number 100) 0 "approved"])])
          (historyOf []))).filteredTransactions
      = [sampleTx "1" "2024-01-01T09:00:00" (.number 100) 0 "approved"] := by
  refine ⟨?_, ?_, ?_, ?_⟩ <;> decide

/-- C18 fails on the code: when the fetched set holds one transaction that
has no risk factors and the page knows of no transaction, the poll tick
replaces the store, sets `lastTransactionCount` to 1 and recomputes the
filtered view, but raises no notification: `createTransactionCard` fails on
the missing risk factors, and the `catch` of `checkForNewTransactions` skips
`flashUpdateNotification`. For the same transaction with an empty list of
risk factors the notification is raised. -/
theorem checkForNewTransactions_skips_notification :
    (flattenHistory
        [("2024-01-01", [sampleTx "1" "2024-01-01T09:00:00" (.number 100) 0 "approved"])]).length
      > (historyOf []).lastTransactionCount
    ∧ checkForNewTransactions sampleBuiltins (dateControls "" "" none)
        (.ok [("2024-01-01", [sampleTx "1" "2024-01-01T09:00:00" (.number 100) 0 "approved"])])
        (historyOf [])
      = ({ allTransactions := [sampleTx "1" "2024-01-01T09:00:00" (.number 100) 0 "approved"],
           filteredTransactions := [sampleTx "1" "2024-01-01T09:00:00" (.number 100) 0 "approved"],
           lastTransactionCount := 1, autoRefreshInterval := none }, false)
    ∧ checkForNewTransactions sampleBuiltins (dateControls "" "" none)
        (.ok [("2024-01-01", [cardTx "1" "2024-01-01T09:00:00"])]) (historyOf [])
      = ({ allTransactions := [cardTx "1" "2024-01-01T09:00:00"],
           filteredTransactions := [cardTx "1" "2024-01-01T09:00:00"],
           lastTransactionCount := 1, autoRefreshInterval := none }, true) := by
  refine ⟨?_, ?_, ?_⟩ <;> decide

/-! ## Stopping the timer (C19) -/

/-- C19: calling `stopAutoRefresh` a second time changes nothing and clears
no timer, so over the two calls `clearInterval` is called at most once; the
transaction lists and the count are never touched; and from every timer state
the page can be in (a handle of `setInterval`, which is not 0, or `null`) the
variable `autoRefreshInterval` is `null` afterwards. The function is total:
no call raises an error. -/
theorem stopAutoRefresh_idempotent (s : HistoryState) :
    stopAutoRefresh (stopAutoRefresh s).1 = ((stopAutoRefresh s).1, [])
    ∧ ((stopAutoRefresh s).2 ++ (stopAutoRefresh (stopAutoRefresh s).1).2).length ≤ 1
    ∧ (stopAutoRefresh s).1.allTransactions = s.allTransactions
    ∧ (stopAutoRefresh s).1.filteredTransactions = s.filteredTransactions
    ∧ (stopAutoRefresh s).1.lastTransactionCount = s.lastTransactionCount
    ∧ (s.autoRefreshInterval ≠ some 0 → (stopAutoRefresh s).1.autoRefreshInterval = none) := by
  rcases hs : s.autoRefreshInterval with _ | n
  · simp [stopAutoRefresh, hs]
  · cases n with
    | zero => simp [stopAutoRefresh, hs]
    | succ n => simp [stopAutoRefresh, hs]

/-- C19 on a page whose timer runs under the handle 7. -/
theorem stopAutoRefresh_idempotent_witness :
    (stopAutoRefresh
        { allTransactions := exampleTransactions, filteredTransactions := [],
          lastTransactionCount := 4, autoRefreshInterval := some 7 }).1.autoRefreshInterval
      = none :=
  (stopAutoRefresh_idempotent
    { allTransactions := exampleTransactions, filteredTransactions := [],
      lastTransactionCount := 4, autoRefreshInterval := some 7 }).2.2.2.2.2 (by decide)

/-! ## Amount ranges (C13, C14) -/

theorem foldl_processTransaction_amountRanges (B : Builtins) (l : List Transaction)
    (d : AnalyticsData) :
    (l.foldl (processTransaction B) d).amountRanges =
      l.foldl (fun r tx => countAmount B r tx.input.amount) d.amountRanges := by
  induction l generalizing d with
  | nil => rfl
  | cons tx l ih => simp only [List.foldl_cons, ih]; rfl

theorem foldl_countAmount (B : Builtins) (l : List Transaction)
    (hnum : ∀ tx ∈ l, ∃ x, tx.input.amount.toNumber B = some x) (r : AmountRanges) :
    (l.foldl (fun r tx => countAmount B r tx.input.amount) r).small
        = r.small + (l.filter (isSmallAmount B)).length
    ∧ (l.foldl (fun r tx => countAmount B r tx.input.amount) r).medium
        = r.medium + (l.filter (isMediumAmount B)).length
    ∧ (l.foldl (fun r tx => countAmount B r tx.input.amount) r).large
        = r.large + (l.filter (isLargeAmount B)).length
    ∧ (l.foldl (fun r tx => countAmount B r tx.input.amount) r).veryLarge
        = r.veryLarge + (l.filter (isVeryLargeAmount B)).length := by
  induction l generalizing r with
  | nil => simp
  | cons tx l ih =>
    have hl : ∀ t ∈ l, ∃ x, t.input.amount.toNumber B = some x :=
      fun t ht => hnum t (List.mem_cons_of_mem _ ht)
    obtain ⟨x, hx⟩ := hnum tx (List.mem_cons_self _ _)
    simp only [List.foldl_cons]
    obtain ⟨i1, i2, i3, i4⟩ := ih hl (countAmount B r tx.input.amount)
    rw [i1, i2, i3, i4]
    by_cases h1 : x < 10000
    · have h2 : ¬ 10000 ≤ x := not_le.mpr h1
      have h3 : ¬ 50000 ≤ x := fun h => h2 (le_trans (by norm_num) h)
      have h4 : ¬ 100000 ≤ x := fun h => h2 (le_trans (by norm_num) h)
      simp [countAmount, hx, JsNumber.lt, List.filter_cons, isSmallAmount, isMediumAmount,
        isLargeAmount, isVeryLargeAmount, h1, h2, h3, h4]
      omega
    · by_cases h2 : x < 50000
      · have h3 : ¬ 50000 ≤ x := not_le.mpr h2
        have h4 : ¬ 100000 ≤ x := fun h => h3 (le_trans (by norm_num) h)
        simp [countAmount, hx, JsNumber.lt, List.filter_cons, isSmallAmount, isMediumAmount,
          isLargeAmount, isVeryLargeAmount, h1, h2, h3, h4, not_lt.mp h1]
        omega
      · by_cases h3 : x < 100000
        · have h4 : ¬ 100000 ≤ x := not_le.mpr h3
          simp [countAmount, hx, JsNumber.lt, List.filter_cons, isSmallAmount, isMediumAmount,
            isLargeAmount, isVeryLargeAmount, h1, h2, h3, h4, not_lt.mp h2]
          omega
        · simp [countAmount, hx, JsNumber.lt, List.filter_cons, isSmallAmount, isMediumAmount,
            isLargeAmount, isVeryLargeAmount, h1, h2, h3, not_lt.mp h3]
          omega

theorem foldl_countAmount_total (B : Builtins) (l : List Transaction) (r : AmountRanges) :
    (l.foldl (fun r tx => countAmount B r tx.input.amount) r).small
        + (l.foldl (fun r tx => countAmount B r tx.input.amount) r).medium
        + (l.foldl (fun r tx => countAmount B r tx.input.amount) r).large
        + (l.foldl (fun r tx => countAmount B r tx.input.amount) r).veryLarge
      = r.small + r.medium + r.large + r.veryLarge + l.length := by
  induction l generalizing r with
  | nil => simp
  | cons tx l ih =>
    simp only [List.foldl_cons, List.length_cons]
    rw [ih]
    unfold countAmount
    split_ifs <;> simp only [] <;> omega

/-- C13: when every amount of the list is a number (or a string that reads
as one), `processAnalyticsData` counts in `small` the transactions with
amount below 10 000, in `medium` those from 10 000 to below 50 000, in `large`
those from 50 000 to below 100 000 and in `veryLarge` those of at least
100 000; the four counts add up to the number of transactions. -/
theorem amountRanges_partition (B : Builtins) (d : AnalyticsData)
    (hnum : ∀ tx ∈ d.allTransactions, ∃ x, tx.input.amount.toNumber B = some x) :
    (processAnalyticsData B d).amountRanges.small
        = (d.allTransactions.filter (isSmallAmount B)).length
    ∧ (processAnalyticsData B d).amountRanges.medium
        = (d.allTransactions.filter (isMediumAmount B)).length
    ∧ (processAnalyticsData B d).amountRanges.large
        = (d.allTransactions.filter (isLargeAmount B)).length
    ∧ (processAnalyticsData B d).amountRanges.veryLarge
        = (d.allTransactions.filter (isVeryLargeAmount B)).length
    ∧ (processAnalyticsData B d).amountRanges.small
        + (processAnalyticsData B d).amountRanges.medium
        + (processAnalyticsData B d).amountRanges.large
        + (processAnalyticsData B d).amountRanges.veryLarge
      = d.allTransactions.length := by
  unfold processAnalyticsData
  rw [foldl_processTransaction_amountRanges]
  obtain ⟨h1, h2, h3, h4⟩ := foldl_countAmount B d.allTransactions hnum
    { small := 0, medium := 0, large := 0, veryLarge := 0 }
  have h5 := foldl_countAmount_total B d.allTransactions
    { small := 0, medium := 0, large := 0, veryLarge := 0 }
  refine ⟨?_, ?_, ?_, ?_, ?_⟩
  · simpa using h1
  · simpa using h2
  · simpa using h3
  · simpa using h4
  · simpa using h5

/-- C13 on the example of the specification, whose amounts are the numbers
100, 200, 300 and 400: all four fall in `small`. -/
theorem amountRanges_partition_witness :
    (processAnalyticsData sampleBuiltins (analyticsOf exampleTransactions)).amountRanges.small
        + (processAnalyticsData sampleBuiltins (analyticsOf exampleTransactions)).amountRanges.medium
        + (processAnalyticsData sampleBuiltins (analyticsOf exampleTransactions)).amountRanges.large
        + (processAnalyticsData sampleBuiltins (analyticsOf exampleTransactions)).amountRanges.veryLarge
      = (analyticsOf exampleTransactions).allTransactions.length :=
  (amountRanges_partition sampleBuiltins (analyticsOf exampleTransactions)
    (by
      intro tx htx
      simp only [analyticsOf, exampleTransactions, List.mem_cons, List.mem_singleton,
        List.not_mem_nil, or_false] at htx
      rcases htx with h | h | h | h <;> subst h <;> exact ⟨_, rfl⟩)).2.2.2.2

/-- C14 fails on the code: a transaction whose amount is the string "abc",
and one whose amount is missing, are each counted in `veryLarge`, because
every comparison with NaN is false and the last `else` takes what is left. -/
theorem nonNumeric_amount_counted_veryLarge :
    (processAnalyticsData sampleBuiltins
        (analyticsOf [sampleTx "1" "2024-01-01T09:00:00" (.text "abc") 0 "approved"])).amountRanges
      = { small := 0, medium := 0, large := 0, veryLarge := 1 }
    ∧ (processAnalyticsData sampleBuiltins
        (analyticsOf [sampleTx "1" "2024-01-01T09:00:00" .missing 0 "approved"])).amountRanges
      = { small := 0, medium := 0, large := 0, veryLarge := 1 } := by
  constructor <;> decide

/-- Whatever the platform, an amount that does not read as a number is
counted in `veryLarge`. -/
theorem countAmount_nan (B : Builtins) (r : AmountRanges) (amount : Amount)
    (h : amount.toNumber B = none) :
    countAmount B r amount = { r with veryLarge := r.veryLarge + 1 } := by
  simp [countAmount, h, JsNumber.lt]

/-! ## Unknown statuses (C15) -/

theorem dailyData_get_nil (date : String) : DailyData.get [] date = none := rfl

theorem dailyData_get_cons (d : String) (o : Counters) (dd : DailyData) (date : String) :
    DailyData.get ((d, o) :: dd) date = if d = date then some o else DailyData.get dd date := by
  by_cases h : d = date <;> simp [DailyData.get, List.find?, h]

theorem countDaily_get (dd : DailyData) (date status date' : String) :
    (countDaily dd date status).get date' =
      if date = date' then some (((dd.get date).getD zeroStatusCounts).increment status)
      else dd.get date' := by
  induction dd with
  | nil =>
    by_cases h : date = date' <;>
      simp [countDaily, dailyData_get_cons, dailyData_get_nil, h]
  | cons p dd ih =>
    obtain ⟨d, o⟩ := p
    by_cases hd : d = date
    · subst hd
      by_cases h : d = date' <;> simp [countDaily, dailyData_get_cons, h]
    · by_cases h : date = date'
      · subst h
        simp [countDaily, dailyData_get_cons, hd, ih]
      · have h' : ¬ date' = date := fun e => h e.symm
        by_cases hd' : d = date' <;>
          simp [countDaily, dailyData_get_cons, hd, hd', h, h', ih]

theorem foldl_processTransaction_dailyData (B : Builtins) (l : List Transaction)
    (d : AnalyticsData) :
    (l.foldl (processTransaction B) d).dailyData =
      l.foldl (fun dd tx => countDaily dd (datePortion tx.timestamp)
        (propertyKey tx.result.status)) d.dailyData := by
  induction l generalizing d with
  | nil => rfl
  | cons tx l ih => simp only [List.foldl_cons, ih]; rfl

theorem propertyKey_ne (name : String) (hn : name ≠ "undefined") (tx : Transaction)
    (hs : tx.result.status ≠ some name) : propertyKey tx.result.status ≠ name := by
  cases hst : tx.result.status with
  | none => exact fun e => hn e.symm
  | some v =>
    intro hv
    apply hs
    rw [hst]
    exact congrArg some hv

theorem foldl_countDaily_count (date name : String) (hn : name ≠ "undefined")
    (l : List Transaction) (dd : DailyData) (n : Nat)
    (h : ((dd.get date).getD zeroStatusCounts).count name = some n) :
    (((l.foldl (fun dd tx => countDaily dd (datePortion tx.timestamp)
        (propertyKey tx.result.status)) dd).get date).getD zeroStatusCounts).count name
      = some (n + (l.filter (onDateWithStatus date name)).length) := by
  induction l generalizing dd n with
  | nil => simpa using h
  | cons tx l ih =>
    simp only [List.foldl_cons]
    by_cases hd : datePortion tx.timestamp = date
    · by_cases hs : tx.result.status = some name
      · have h1 : (((countDaily dd (datePortion tx.timestamp)
            (propertyKey tx.result.status)).get date).getD zeroStatusCounts).count name
            = some (n + 1) := by
          rw [countDaily_get, if_pos hd, Option.getD_some, Counters.count_increment, hd, hs]
          simp [propertyKey, h]
        rw [ih _ _ h1]
        simp [List.filter_cons, onDateWithStatus, hasStatus, hd, hs]
        omega
      · have h1 : (((countDaily dd (datePortion tx.timestamp)
            (propertyKey tx.result.status)).get date).getD zeroStatusCounts).count name
            = some n := by
          rw [countDaily_get, if_pos hd, Option.getD_some, Counters.count_increment, hd,
            if_neg (propertyKey_ne name hn tx hs)]
          exact h
        rw [ih _ _ h1]
        simp [List.filter_cons, onDateWithStatus, hasStatus, hs]
    · have h1 : (((countDaily dd (datePortion tx.timestamp)
          (propertyKey tx.result.status)).get date).getD zeroStatusCounts).count name
          = some n := by
        rw [countDaily_get, if_neg hd]
        exact h
      rw [ih _ _ h1]
      simp [List.filter_cons, onDateWithStatus, hd]

theorem foldl_countDaily_isSome (date : String) (l : List Transaction) (dd : DailyData)
    (h : (dd.get date).isSome = true ∨ ∃ tx ∈ l, datePortion tx.timestamp = date) :
    ((l.foldl (fun dd tx => countDaily dd (datePortion tx.timestamp)
        (propertyKey tx.result.status)) dd).get date).isSome = true := by
  induction l generalizing dd with
  | nil =>
    rcases h with h | ⟨tx, htx, _⟩
    · exact h
    · cases htx
  | cons tx l ih =>
    simp only [List.foldl_cons]
    apply ih
    by_cases hd : datePortion tx.timestamp = date
    · left
      rw [countDaily_get, if_pos hd]
      rfl
    · rcases h with h | ⟨t, ht, htd⟩
      · left
        rw [countDaily_get, if_neg hd]
        exact h
      · rcases List.mem_cons.mp ht with e | ht'
        · subst e; exact absurd htd hd
        · right; exact ⟨t, ht', htd⟩

theorem isStatusName_ne_undefined (name : String) (hname : IsStatusName name) :
    name ≠ "undefined" := by
  rcases hname with h | h | h <;> subst h <;> decide

theorem processAnalyticsData_daily (B : Builtins) (d : AnalyticsData) (name : String)
    (hname : IsStatusName name) (tx : Transaction) (htx : tx ∈ d.allTransactions) :
    ∃ o, (processAnalyticsData B d).dailyData.get (datePortion tx.timestamp) = some o
      ∧ o.count name
        = some (d.allTransactions.filter
            (onDateWithStatus (datePortion tx.timestamp) name)).length := by
  have hn := isStatusName_ne_undefined name hname
  have h0 : Counters.count zeroStatusCounts name = some 0 := by
    rcases hname with h | h | h <;> subst h <;> decide
  have hsome := foldl_countDaily_isSome (datePortion tx.timestamp) d.allTransactions []
    (Or.inr ⟨tx, htx, rfl⟩)
  have hcount := foldl_countDaily_count (datePortion tx.timestamp) name hn d.allTransactions [] 0
    (by simpa [dailyData_get_nil] using h0)
  unfold processAnalyticsData
  rw [foldl_processTransaction_dailyData]
  obtain ⟨o, ho⟩ := Option.isSome_iff_exists.mp hsome
  refine ⟨o, ho, ?_⟩
  rw [ho, Option.getD_some] at hcount
  simpa using hcount

theorem filter_remove_unknown (p : Transaction → Bool) (l1 l2 : List Transaction)
    (tx : Transaction) (h : p tx = false) :
    (l1 ++ tx :: l2).filter p = (l1 ++ l2).filter p := by
  simp [List.filter_append, List.filter_cons, h]

/-- C15: `processAnalyticsData` is a total function (it raises no error on
any status), and for each of the three status names the counter in
`statusCounts` is the number of transactions with exactly that status, and
the counter in the `dailyData` entry of any transaction of the list is the
number of transactions of that day with exactly that status. So a
transaction whose status is none of the three adds zero to each of them: the
counters are those of the list without that transaction. -/
theorem unknown_status_counts_zero (B : Builtins) (d : AnalyticsData) (name : String)
    (hname : IsStatusName name) :
    (processAnalyticsData B d).statusCounts.count name
        = some (d.allTransactions.filter (hasStatus name)).length
    ∧ (∀ tx ∈ d.allTransactions,
        ∃ o, (processAnalyticsData B d).dailyData.get (datePortion tx.timestamp) = some o
          ∧ o.count name
            = some (d.allTransactions.filter
                (onDateWithStatus (datePortion tx.timestamp) name)).length)
    ∧ (∀ l1 l2 tx, d.allTransactions = l1 ++ tx :: l2 → knownStatus tx = false →
        (processAnalyticsData B d).statusCounts.count name
            = some ((l1 ++ l2).filter (hasStatus name)).length
        ∧ ∃ o, (processAnalyticsData B d).dailyData.get (datePortion tx.timestamp) = some o
          ∧ o.count name
            = some ((l1 ++ l2).filter
                (onDateWithStatus (datePortion tx.timestamp) name)).length) := by
  have h1 := processAnalyticsData_count B d name hname
  refine ⟨h1, fun tx htx => processAnalyticsData_daily B d name hname tx htx, ?_⟩
  intro l1 l2 tx hl hunknown
  have hst : hasStatus name tx = false := by
    unfold knownStatus at hunknown
    simp only [Bool.or_eq_false_iff] at hunknown
    rcases hname with h | h | h <;> subst h
    · exact hunknown.1.1
    · exact hunknown.1.2
    · exact hunknown.2
  have hmem : tx ∈ d.allTransactions := by rw [hl]; simp
  constructor
  · rw [h1, hl, filter_remove_unknown _ l1 l2 tx hst]
  · obtain ⟨o, ho, hc⟩ := processAnalyticsData_daily B d name hname tx hmem
    refine ⟨o, ho, ?_⟩
    rw [hc, hl, filter_remove_unknown _ l1 l2 tx (by simp [onDateWithStatus, hst])]

/-- C15 on the example of the specification followed by a transaction with
the status "pending": the approved counter is that of the example alone. -/
theorem unknown_status_counts_zero_witness :
    (processAnalyticsData sampleBuiltins
        (analyticsOf (exampleTransactions
          ++ [sampleTx "5" "2024-01-02T10:00:00" (.number 500) 0 "pending"]))).statusCounts.count
        "approved"
      = some ((exampleTransactions ++ []).filter (hasStatus "approved")).length :=
  ((unknown_status_counts_zero sampleBuiltins
      (analyticsOf (exampleTransactions
        ++ [sampleTx "5" "2024-01-02T10:00:00" (.number 500) 0 "pending"]))
      "approved" (Or.inl rfl)).2.2 exampleTransactions []
    (sampleTx "5" "2024-01-02T10:00:00" (.number 500) 0 "pending") rfl (by decide)).1

/-! ## Percentages of the analytics view (C11) -/

/-- C11, as stated, fails: on an analytics object with no transaction the
three percentages of `displayStatistics` and the rates of `generateInsights`
are the text "NaN". -/
theorem analytics_percentages_counterexample :
    (displayStatistics (analyticsOf [])).approvedPct = "NaN"
    ∧ (displayStatistics (analyticsOf [])).reviewPct = "NaN"
    ∧ (displayStatistics (analyticsOf [])).declinedPct = "NaN"
    ∧ (insightRates (analyticsOf [])).declinedRate = "NaN"
    ∧ (insightRates (analyticsOf [])).largeRate = "NaN"
    ∧ (insightRates (analyticsOf [])).reviewRate = "NaN" := by
  refine ⟨?_, ?_, ?_, ?_, ?_, ?_⟩ <;> decide

theorem foldl_processTransaction_allTransactions (B : Builtins) (l : List Transaction)
    (d : AnalyticsData) :
    (l.foldl (processTransaction B) d).allTransactions = d.allTransactions := by
  induction l generalizing d with
  | nil => rfl
  | cons tx l ih => simp only [List.foldl_cons, ih]; rfl

theorem processAnalyticsData_allTransactions (B : Builtins) (d : AnalyticsData) :
    (processAnalyticsData B d).allTransactions = d.allTransactions := by
  unfold processAnalyticsData
  rw [foldl_processTransaction_allTransactions]

theorem toFixed1_ne_nan (x : ℚ) : toFixed1 x ≠ "NaN" := by
  intro h
  have hmem : '.' ∈ (toFixed1 x).toList := by
    simp [toFixed1, String.toList]
  rw [h] at hmem
  revert hmem
  decide

theorem roundHalfEven_down (m : ℚ) (n : ℤ) (h1 : (n : ℚ) ≤ m) (h2 : m - n < 1 / 2) :
    roundHalfEven m = n := by
  have hfloor : Int.floor m = n := by
    rw [Int.floor_eq_iff]
    constructor
    · exact h1
    · linarith
  simp only [roundHalfEven, hfloor, if_pos h2]

theorem roundHalfEven_up (m : ℚ) (n : ℤ) (h1 : m < (n : ℚ)) (h2 : (n : ℚ) - m < 1 / 2) :
    roundHalfEven m = n := by
  have hfloor : Int.floor m = n - 1 := by
    rw [Int.floor_eq_iff]
    push_cast
    constructor <;> linarith
  have h3 : ¬ (m - ((n - 1 : ℤ) : ℚ) < 1 / 2) := by
    push_cast
    linarith
  have h4 : 1 / 2 < m - ((n - 1 : ℤ) : ℚ) := by
    push_cast
    linarith
  simp only [roundHalfEven, hfloor, if_neg h3, if_pos h4]
  ring

theorem binaryExponent_small (fuel : Nat) (x : ℚ) (h : x < 1) :
    binaryExponent (fuel + 1) x = binaryExponent fuel (x * 2) - 1 := by
  simp only [binaryExponent, if_pos h]

theorem binaryExponent_large (fuel : Nat) (x : ℚ) (h : 2 ≤ x) :
    binaryExponent (fuel + 1) x = binaryExponent fuel (x / 2) + 1 := by
  have h1 : ¬ x < 1 := by linarith
  simp only [binaryExponent, if_neg h1, if_pos h]

theorem binaryExponent_unit (fuel : Nat) (x : ℚ) (h1 : 1 ≤ x) (h2 : x < 2) :
    binaryExponent (fuel + 1) x = 0 := by
  have h3 : ¬ x < 1 := by linarith
  have h4 : ¬ 2 ≤ x := by linarith
  simp only [binaryExponent, if_neg h3, if_neg h4]

theorem toDouble_pos (x : ℚ) (e n : ℤ) (hx : 0 < x) (he : binaryExponent 1100 x = e)
    (hmin : -1022 ≤ e) (hn : roundHalfEven (x / (2 : ℚ) ^ (e - 52)) = n) :
    toDouble x = (n : ℚ) * (2 : ℚ) ^ (e - 52) := by
  have h0 : ¬ x = 0 := ne_of_gt hx
  have h1 : ¬ x < 0 := not_lt.mpr (le_of_lt hx)
  simp only [toDouble, if_neg h0, if_neg h1, abs_of_pos hx, he, max_eq_left hmin, hn, one_mul]

theorem toDouble_ratio : toDouble (23 / 80) = 2589569785738035 / 9007199254740992 := by
  have he : binaryExponent 1100 (23 / 80 : ℚ) = -2 := by
    rw [show (1100 : Nat) = 1097 + 1 + 1 + 1 from rfl,
      binaryExponent_small _ _ (by norm_num), binaryExponent_small _ _ (by norm_num),
      binaryExponent_unit _ _ (by norm_num) (by norm_num)]
    norm_num
  rw [toDouble_pos (23 / 80) (-2) 5179139571476070 (by norm_num) he (by norm_num)
    (by apply roundHalfEven_down <;> norm_num)]
  norm_num

theorem toDouble_product :
    toDouble (2589569785738035 / 9007199254740992 * 100) = 8092405580431359 / 281474976710656 := by
  have he : binaryExponent 1100 (2589569785738035 / 9007199254740992 * 100 : ℚ) = 4 := by
    rw [show (1100 : Nat) = 1095 + 1 + 1 + 1 + 1 + 1 from rfl,
      binaryExponent_large _ _ (by norm_num), binaryExponent_large _ _ (by norm_num),
      binaryExponent_large _ _ (by norm_num), binaryExponent_large _ _ (by norm_num),
      binaryExponent_unit _ _ (by norm_num) (by norm_num)]
    norm_num
  rw [toDouble_pos _ 4 8092405580431359 (by norm_num) he (by norm_num)
    (by apply roundHalfEven_down <;> norm_num)]
  norm_num

theorem percentValue_23_of_80 : toFixed1 (percentValue 23 80) = "28.7" := by
  have h : Int.floor (|(8092405580431359 / 281474976710656 : ℚ)| * 10 + 1 / 2) = 287 := by
    rw [Int.floor_eq_iff]
    norm_num [abs_of_pos]
  have h2 : ¬ ((8092405580431359 / 281474976710656 : ℚ) < 0) := by norm_num
  simp only [percentValue, toDouble_ratio, toDouble_product, toFixed1, h, if_neg h2]
  decide

theorem percentText_pos (n total : Nat) (h : total ≠ 0) :
    percentText (some n) total = toFixed1 (percentValue (n : ℚ) (total : ℚ)) := by
  simp [percentText, h]

/-- C11, amended: when the fetched set is empty, `loadAnalyticsData` shows
the text "No transactions found" and returns before `displayStatistics` and
`generateInsights`, so no percentage and no rate is computed; when the
fetched set is not empty, each percentage of `displayStatistics` and each
rate of `generateInsights` is the one-decimal text of `(count / total) * 100`,
computed in double arithmetic, for the count it belongs to, none of them is
the text "NaN", and they are what the dashboard shows when `generateInsights`
runs to its end. -/
theorem loadAnalyticsData_percentages (B : Builtins) (h : HistoryByDate) (d : AnalyticsData) :
    (flattenHistory h = [] → (loadAnalyticsData B (some h) d).2 = AnalyticsPage.noTransactions)
    ∧ (flattenHistory h ≠ [] →
        ∃ st rt,
          st = displayStatistics
            (processAnalyticsData B { d with allTransactions := flattenHistory h })
          ∧ rt = insightRates
            (processAnalyticsData B { d with allTransactions := flattenHistory h })
          ∧ (insightsComplete B
                (processAnalyticsData B { d with allTransactions := flattenHistory h }) = true →
              (loadAnalyticsData B (some h) d).2 = AnalyticsPage.dashboard st rt)
          ∧ st.approvedPct
              = toFixed1 (percentValue
                  (((flattenHistory h).filter (hasStatus "approved")).length : ℚ)
                  ((flattenHistory h).length : ℚ))
          ∧ st.reviewPct
              = toFixed1 (percentValue
                  (((flattenHistory h).filter (hasStatus "review")).length : ℚ)
                  ((flattenHistory h).length : ℚ))
          ∧ st.declinedPct
              = toFixed1 (percentValue
                  (((flattenHistory h).filter (hasStatus "declined")).length : ℚ)
                  ((flattenHistory h).length : ℚ))
          ∧ rt.declinedRate = st.declinedPct
          ∧ rt.reviewRate = st.reviewPct
          ∧ rt.largeRate
              = toFixed1 (percentValue
                  (((processAnalyticsData B
                        { d with allTransactions := flattenHistory h }).amountRanges.large
                      + (processAnalyticsData B
                        { d with allTransactions := flattenHistory h }).amountRanges.veryLarge : Nat) : ℚ)
                  ((flattenHistory h).length : ℚ))
          ∧ st.approvedPct ≠ "NaN" ∧ st.reviewPct ≠ "NaN" ∧ st.declinedPct ≠ "NaN"
          ∧ rt.declinedRate ≠ "NaN" ∧ rt.largeRate ≠ "NaN" ∧ rt.reviewRate ≠ "NaN") := by
  constructor
  · intro hnil
    simp [loadAnalyticsData, hnil]
  · intro hne
    have hlen : (flattenHistory h).length ≠ 0 := fun e => hne (List.length_eq_zero.mp e)
    have hall := processAnalyticsData_allTransactions B
      { d with allTransactions := flattenHistory h }
    have ha := processAnalyticsData_count B { d with allTransactions := flattenHistory h }
      "approved" (Or.inl rfl)
    have hr := processAnalyticsData_count B { d with allTransactions := flattenHistory h }
      "review" (Or.inr (Or.inl rfl))
    have hd := processAnalyticsData_count B { d with allTransactions := flattenHistory h }
      "declined" (Or.inr (Or.inr rfl))
    refine ⟨displayStatistics (processAnalyticsData B { d with allTransactions := flattenHistory h }),
      insightRates (processAnalyticsData B { d with allTransactions := flattenHistory h }),
      rfl, rfl, ?_, ?_, ?_, ?_, ?_, ?_, ?_, ?_⟩
    · intro hcomplete
      simp [loadAnalyticsData, hlen, hcomplete]
    · simp only [displayStatistics, hall, ha, percentText_pos _ _ hlen]
    · simp only [displayStatistics, hall, hr, percentText_pos _ _ hlen]
    · simp only [displayStatistics, hall, hd, percentText_pos _ _ hlen]
    · rfl
    · rfl
    · simp only [insightRates, hall, percentText_pos _ _ hlen]
    · simp only [displayStatistics, insightRates, hall, ha, hr, hd, percentText_pos _ _ hlen]
      exact ⟨toFixed1_ne_nan _, toFixed1_ne_nan _, toFixed1_ne_nan _, toFixed1_ne_nan _,
        toFixed1_ne_nan _, toFixed1_ne_nan _⟩

/-- C11, amended, on the empty fetched object, and on a fetched set of 80
transactions of which 23 are approved: the approved percentage is the text
"28.7", as `(23 / 80) * 100` is 28.749999999999996 in double arithmetic. -/
theorem loadAnalyticsData_percentages_witness :
    (loadAnalyticsData sampleBuiltins (some []) (analyticsOf [])).2 = AnalyticsPage.noTransactions
    ∧ (displayStatistics (processAnalyticsData sampleBuiltins
          { analyticsOf [] with
            allTransactions := flattenHistory [("2024-01-01", eightyTransactions)] })).approvedPct
        = "28.7"
    ∧ (insightRates (processAnalyticsData sampleBuiltins
          { analyticsOf [] with
            allTransactions := flattenHistory [("2024-01-01", eightyTransactions)] })).largeRate
        ≠ "NaN" :=
  ⟨(loadAnalyticsData_percentages sampleBuiltins [] (analyticsOf [])).1 rfl,
    by
      obtain ⟨st, rt, h1, h2, _, h4, _, _, _, _, _, _, _, _, _, h12, _⟩ :=
        (loadAnalyticsData_percentages sampleBuiltins [("2024-01-01", eightyTransactions)]
          (analyticsOf [])).2 (by decide)
      have hcount : ((flattenHistory [("2024-01-01", eightyTransactions)]).filter
          (hasStatus "approved")).length = 23 := by decide
      have hlen : (flattenHistory [("2024-01-01", eightyTransactions)]).length = 80 := by decide
      rw [hcount, hlen] at h4
      rw [← h1, ← h2]
      refine ⟨?_, h12⟩
      rw [h4]
      exact_mod_cast percentValue_23_of_80⟩

/-! ## Grouping by date (C16) -/

theorem groupedByDate_get_nil (date : String) : HistoryByDate.get [] date = none := rfl

theorem groupedByDate_get_cons (d : String) (g : List Transaction) (rest : HistoryByDate)
    (date : String) :
    HistoryByDate.get ((d, g) :: rest) date
      = if d = date then some g else HistoryByDate.get rest date := by
  by_cases h : d = date <;> simp [HistoryByDate.get, List.find?, h]

theorem groupPush_get (g : HistoryByDate) (date : String) (tx : Transaction) (date' : String) :
    (groupPush g date tx).get date' =
      if date = date' then some ((g.get date).getD [] ++ [tx]) else g.get date' := by
  induction g with
  | nil =>
    by_cases h : date = date' <;>
      simp [groupPush, groupedByDate_get_cons, groupedByDate_get_nil, h]
  | cons p g ih =>
    obtain ⟨d, l⟩ := p
    by_cases hd : d = date
    · subst hd
      by_cases h : d = date' <;> simp [groupPush, groupedByDate_get_cons, h]
    · by_cases h : date = date'
      · subst h
        simp [groupPush, groupedByDate_get_cons, hd, ih]
      · have h' : ¬ date' = date := fun e => h e.symm
        by_cases hd' : d = date' <;>
          simp [groupPush, groupedByDate_get_cons, hd, hd', h, h', ih]

theorem groupPush_keys (g : HistoryByDate) (date : String) (tx : Transaction) :
    (groupPush g date tx).map (fun p => p.1) =
      if date ∈ g.map (fun p => p.1) then g.map (fun p => p.1)
      else g.map (fun p => p.1) ++ [date] := by
  induction g with
  | nil => simp [groupPush]
  | cons p g ih =>
    obtain ⟨d, l⟩ := p
    by_cases hd : d = date
    · subst hd
      simp [groupPush]
    · have hd' : ¬ date = d := fun e => hd e.symm
      simp only [groupPush, if_neg hd, List.map_cons, ih, List.mem_cons, hd', false_or]
      split_ifs <;> simp

theorem foldl_groupPush_get (l : List Transaction) (g : HistoryByDate) (date : String) :
    ((l.foldl (fun g tx => groupPush g (datePortion tx.timestamp) tx) g).get date).getD []
      = (g.get date).getD []
          ++ l.filter (fun tx => decide (datePortion tx.timestamp = date)) := by
  induction l generalizing g with
  | nil => simp
  | cons tx l ih =>
    simp only [List.foldl_cons]
    rw [ih, groupPush_get]
    by_cases hd : datePortion tx.timestamp = date
    · subst hd
      simp [List.filter_cons]
    · simp [List.filter_cons, hd]

theorem foldl_groupPush_keys_nodup (l : List Transaction) (g : HistoryByDate)
    (hg : (g.map (fun p => p.1)).Nodup) :
    ((l.foldl (fun g tx => groupPush g (datePortion tx.timestamp) tx) g).map
      (fun p => p.1)).Nodup := by
  induction l generalizing g with
  | nil => exact hg
  | cons tx l ih =>
    simp only [List.foldl_cons]
    apply ih
    rw [groupPush_keys]
    split_ifs with hmem
    · exact hg
    · rw [List.nodup_append]
      refine ⟨hg, List.nodup_singleton _, ?_⟩
      intro a ha hb
      rw [List.mem_singleton] at hb
      subst hb
      exact hmem ha

theorem foldl_groupPush_keys_mem (l : List Transaction) (g : HistoryByDate) (date : String) :
    date ∈ (l.foldl (fun g tx => groupPush g (datePortion tx.timestamp) tx) g).map (fun p => p.1)
      ↔ date ∈ g.map (fun p => p.1) ∨ ∃ tx ∈ l, datePortion tx.timestamp = date := by
  induction l generalizing g with
  | nil => simp
  | cons tx l ih =>
    simp only [List.foldl_cons]
    rw [ih, groupPush_keys]
    by_cases hmem : datePortion tx.timestamp ∈ g.map (fun p => p.1)
    · rw [if_pos hmem]
      constructor
      · rintro (h | ⟨t, ht, htd⟩)
        · exact Or.inl h
        · exact Or.inr ⟨t, List.mem_cons_of_mem _ ht, htd⟩
      · rintro (h | ⟨t, ht, htd⟩)
        · exact Or.inl h
        · rcases List.mem_cons.mp ht with e | ht'
          · subst e; left; rw [← htd]; exact hmem
          · exact Or.inr ⟨t, ht', htd⟩
    · rw [if_neg hmem]
      constructor
      · rintro (h | ⟨t, ht, htd⟩)
        · rcases List.mem_append.mp h with h1 | h1
          · exact Or.inl h1
          · rw [List.mem_singleton] at h1
            exact Or.inr ⟨tx, List.mem_cons_self _ _, h1.symm⟩
        · exact Or.inr ⟨t, List.mem_cons_of_mem _ ht, htd⟩
      · rintro (h | ⟨t, ht, htd⟩)
        · exact Or.inl (List.mem_append_left _ h)
        · rcases List.mem_cons.mp ht with e | ht'
          · subst e; left; rw [← htd]; exact List.mem_append_right _ (List.mem_singleton_self _)
          · exact Or.inr ⟨t, ht', htd⟩

theorem groupByDate_get (l : List Transaction) (date : String) :
    ((groupByDate l).get date).getD []
      = l.filter (fun tx => decide (datePortion tx.timestamp = date)) := by
  unfold groupByDate
  rw [foldl_groupPush_get]
  simp [groupedByDate_get_nil]

theorem groupByDate_keys_nodup (l : List Transaction) :
    ((groupByDate l).map (fun p => p.1)).Nodup :=
  foldl_groupPush_keys_nodup l [] List.nodup_nil

theorem groupByDate_keys_mem (l : List Transaction) (date : String) :
    date ∈ (groupByDate l).map (fun p => p.1) ↔ ∃ tx ∈ l, datePortion tx.timestamp = date := by
  unfold groupByDate
  rw [foldl_groupPush_keys_mem]
  simp

theorem char_range (c : Char) :
    c.toNat < 55296 ∨ (57343 < c.toNat ∧ c.toNat < 1114112) := by
  have h := c.valid
  simpa [UInt32.isValidChar, Nat.isValidChar, Char.toNat] using h

theorem char_eq_of_toNat (c d : Char) (h : c.toNat = d.toNat) : c = d := by
  apply Char.ext
  apply UInt32.ext
  exact h

theorem codeUnitsOf_injective (cs ds : List Char) (h : codeUnitsOf cs = codeUnitsOf ds) :
    cs = ds := by
  induction cs generalizing ds with
  | nil =>
    cases ds with
    | nil => rfl
    | cons d ds =>
      unfold codeUnitsOf at h
      split_ifs at h
  | cons c cs ih =>
    cases ds with
    | nil =>
      unfold codeUnitsOf at h
      split_ifs at h
    | cons d ds =>
      have hc := char_range c
      have hd := char_range d
      rw [codeUnitsOf, codeUnitsOf] at h
      split_ifs at h with h1 h2 h2
      · simp only [List.cons.injEq] at h
        rw [char_eq_of_toNat c d h.1, ih ds h.2]
      · simp only [List.cons.injEq] at h
        exfalso
        omega
      · simp only [List.cons.injEq] at h
        exfalso
        omega
      · simp only [List.cons.injEq] at h
        have : c.toNat = d.toNat := by omega
        rw [char_eq_of_toNat c d this, ih ds h.2.2]

theorem codeUnits_injective (a b : String) (h : codeUnits a = codeUnits b) : a = b :=
  String.ext (codeUnitsOf_injective _ _ h)

theorem compareStrings_positive (a b : String) :
    (compareStrings a b).positive = true ↔ codeUnits b < codeUnits a := by
  unfold compareStrings
  by_cases h1 : codeUnits a < codeUnits b
  · have h2 : ¬ codeUnits b < codeUnits a := lt_asymm h1
    rw [if_pos h1]
    simp only [JsNumber.positive, h2, iff_false]
    norm_num
  · rw [if_neg h1]
    by_cases h2 : codeUnits b < codeUnits a
    · rw [if_pos h2]
      simp only [JsNumber.positive, h2, iff_true]
      norm_num
    · rw [if_neg h2]
      simp only [JsNumber.positive, h2, iff_false]
      norm_num

theorem sortedDates_descending (keys : List String) (hnodup : keys.Nodup) :
    (stableSort compareStrings keys).reverse.Pairwise
      (fun a b => codeUnits b < codeUnits a) := by
  rw [List.pairwise_reverse]
  have hle : (stableSort compareStrings keys).Pairwise
      (fun a b => codeUnits a ≤ codeUnits b) := by
    refine stableSort_pairwise compareStrings (fun a b => codeUnits a ≤ codeUnits b)
      (fun a b c h1 h2 => le_trans h1 h2) keys ?_ ?_
    · intro a _ b _ h
      exact le_of_lt ((compareStrings_positive a b).mp h)
    · intro a _ b _ h
      rw [Bool.eq_false_iff] at h
      exact le_of_not_lt (fun hlt => h ((compareStrings_positive a b).mpr hlt))
  have hnd : (stableSort compareStrings keys).Nodup :=
    (stableSort_perm compareStrings keys).nodup_iff.mpr hnodup
  refine (hle.and hnd).imp ?_
  intro a b hab
  exact lt_of_le_of_ne hab.1 (fun e => hab.2 (codeUnits_injective a b e))

theorem compareStrings_isSome (a b : String) : (compareStrings a b).isSome = true := by
  unfold compareStrings
  split_ifs <;> rfl

theorem arraySort_compareStrings (B : Builtins) (keys : List String) :
    arraySort B compareStrings keys = stableSort compareStrings keys :=
  arraySort_eq_stableSort B _ keys (fun a _ b _ => compareStrings_isSome a b)

theorem newestFirst_eq (B : Builtins) : newestFirst B = sortComparator B "date-desc" := by
  funext a b
  simp [newestFirst, sortComparator]

theorem sortField_date (B : Builtins) (tx : Transaction) :
    sortField B "date-desc" tx = B.parseDate tx.timestamp := by
  simp [sortField]

theorem arraySort_newestFirst_pairwise (B : Builtins) (l : List Transaction)
    (hdates : ∀ tx ∈ l, (B.parseDate tx.timestamp).isSome = true) :
    List.Pairwise (KeyOrdered B "date-desc") (arraySort B (newestFirst B) l) := by
  have hkey : "date-desc" ∈ sortKeys := by decide
  have hfield : ∀ tx ∈ l, (sortField B "date-desc" tx).isSome = true := by
    intro tx htx
    rw [sortField_date]
    exact hdates tx htx
  rw [newestFirst_eq, arraySort_sortComparator B _ hkey l hfield]
  refine stableSort_pairwise _ _ (keyOrdered_trans B _) _ ?_ ?_
  · intro a _ b _ h
    exact keyOrdered_of_positive B _ hkey a b h
  · intro a ha b hb h
    exact keyOrdered_of_not_positive B _ hkey a b (hfield a ha) (hfield b hb) h

theorem appendGroups_complete (B : Builtins) (g : HistoryByDate) (dates : List String)
    (h : ∀ date ∈ dates, ∀ tx ∈ (g.get date).getD [],
      (createTransactionCard tx).isSome = true) :
    appendGroups B g dates
      = { groups := dates.map
            (fun date => (date, arraySort B (newestFirst B) ((g.get date).getD []))),
          completed := true } := by
  induction dates with
  | nil => rfl
  | cons date rest ih =>
    have hall : (arraySort B (newestFirst B) ((g.get date).getD [])).all
        (fun tx => (createTransactionCard tx).isSome) = true := by
      rw [List.all_eq_true]
      intro tx htx
      exact h date (List.mem_cons_self _ _) tx ((arraySort_perm B _ _).mem_iff.mp htx)
    have ih' := ih (fun d hd => h d (List.mem_cons_of_mem _ hd))
    simp only [appendGroups, hall, if_true, ih', List.map_cons]

theorem displayHistory_complete (B : Builtins) (s : HistoryState)
    (hcards : ∀ tx ∈ s.filteredTransactions, (createTransactionCard tx).isSome = true) :
    displayHistory B s
      = { groups := ((stableSort compareStrings
              ((groupByDate s.filteredTransactions).map (fun p => p.1))).reverse).map
            (fun date => (date, arraySort B (newestFirst B)
              (s.filteredTransactions.filter
                (fun tx => decide (datePortion tx.timestamp = date))))),
          completed := true } := by
  by_cases hempty : s.filteredTransactions.length = 0
  · have hnil : s.filteredTransactions = [] := List.length_eq_zero.mp hempty
    simp [displayHistory, hnil, groupByDate, stableSort]
  · simp only [displayHistory, if_neg hempty, arraySort_compareStrings]
    rw [appendGroups_complete]
    · simp only [groupByDate_get]
    · intro date _ tx htx
      rw [groupByDate_get] at htx
      exact hcards tx (List.mem_filter.mp htx).1

/-- C16, as stated, fails. With the sort of the V8 engine, the three
transactions of 2024-01-01 with the times 09:00:00, 25:00:00 (an invalid
date) and 10:00:00 are shown in one group in that very order, the older
before the newer, because every comparison with the invalid date is NaN. And
for a list with one transaction that has no risk factors,
`createTransactionCard` fails: no group is shown and `displayHistory` does
not run to its end. -/
theorem displayHistory_groups_counterexample :
    displayHistory sampleBuiltins
        { allTransactions := [], filteredTransactions :=
            [cardTx "a" "2024-01-01T09:00:00", cardTx "b" "2024-01-01T25:00:00",
             cardTx "c" "2024-01-01T10:00:00"],
          lastTransactionCount := 0, autoRefreshInterval := none }
      = { groups := [("2024-01-01",
            [cardTx "a" "2024-01-01T09:00:00", cardTx "b" "2024-01-01T25:00:00",
             cardTx "c" "2024-01-01T10:00:00"])],
          completed := true }
    ∧ sampleBuiltins.parseDate "2024-01-01T09:00:00" = some 20240101090000
    ∧ sampleBuiltins.parseDate "2024-01-01T25:00:00" = none
    ∧ sampleBuiltins.parseDate "2024-01-01T10:00:00" = some 20240101100000
    ∧ ¬ List.Pairwise (KeyOrdered sampleBuiltins "date-desc")
        [cardTx "a" "2024-01-01T09:00:00", cardTx "b" "2024-01-01T25:00:00",
         cardTx "c" "2024-01-01T10:00:00"]
    ∧ displayHistory sampleBuiltins
        { allTransactions := [], filteredTransactions :=
            [sampleTx "1" "2024-01-01T09:00:00" (.number 100) 0 "approved"],
          lastTransactionCount := 0, autoRefreshInterval := none }
      = { groups := [], completed := false } := by
  have ha : sampleBuiltins.parseDate "2024-01-01T09:00:00" = some 20240101090000 := by
    show readTimestamp "2024-01-01T09:00:00".toList = some 20240101090000
    simp [readTimestamp, digitsValue]
  have hb : sampleBuiltins.parseDate "2024-01-01T25:00:00" = none := by decide
  have hc : sampleBuiltins.parseDate "2024-01-01T10:00:00" = some 20240101100000 := by
    show readTimestamp "2024-01-01T10:00:00".toList = some 20240101100000
    simp [readTimestamp, digitsValue]
  refine ⟨by decide, ha, hb, hc, ?_, by decide⟩
  intro h
  obtain ⟨x, y, _, hy, _⟩ := (List.pairwise_cons.mp h).1 (cardTx "b" "2024-01-01T25:00:00")
    (List.mem_cons_self _ _)
  rw [sortField_date] at hy
  have hy' : sampleBuiltins.parseDate "2024-01-01T25:00:00" = some y := hy
  rw [hb] at hy'
  cases hy'

/-- C16, amended: when every transaction of the filtered list has a status
and risk factors (so that every card can be made) and a timestamp that is a
valid date, `displayHistory` runs to its end and the date groups it shows
partition the filtered list by the date portion of the timestamp. Each group
holds exactly the transactions of the list whose date portion is the date of
the group, each as often as in the list, so a transaction is in the group of
its date and in no other; every transaction of the list has a group for its
date; no group is empty; inside a group every transaction is at least as new,
by the time value of its timestamp, as every later one; and the dates of the
groups come in strictly descending lexicographic order of their code units,
so no date has two groups. -/
theorem displayHistory_groups (B : Builtins) (s : HistoryState)
    (hcards : ∀ tx ∈ s.filteredTransactions, (createTransactionCard tx).isSome = true)
    (hdates : ∀ tx ∈ s.filteredTransactions, (B.parseDate tx.timestamp).isSome = true) :
    (displayHistory B s).completed = true
    ∧ (∀ p ∈ (displayHistory B s).groups,
        p.2.Perm (s.filteredTransactions.filter
          (fun tx => decide (datePortion tx.timestamp = p.1))))
    ∧ (∀ p ∈ (displayHistory B s).groups, ∀ tx ∈ p.2,
        tx ∈ s.filteredTransactions ∧ datePortion tx.timestamp = p.1)
    ∧ (∀ tx ∈ s.filteredTransactions,
        datePortion tx.timestamp ∈ (displayHistory B s).groups.map (fun p => p.1))
    ∧ (∀ p ∈ (displayHistory B s).groups, p.2 ≠ [])
    ∧ (∀ p ∈ (displayHistory B s).groups, List.Pairwise (KeyOrdered B "date-desc") p.2)
    ∧ ((displayHistory B s).groups.map (fun p => p.1)).Pairwise
        (fun a b => codeUnits b < codeUnits a) := by
  have hkeys : (displayHistory B s).groups.map (fun p => p.1)
      = (stableSort compareStrings
          ((groupByDate s.filteredTransactions).map (fun p => p.1))).reverse := by
    rw [displayHistory_complete B s hcards]
    simp only [List.map_map]
    exact List.map_id _
  have hmem : ∀ p ∈ (displayHistory B s).groups,
      p.2 = arraySort B (newestFirst B)
        (s.filteredTransactions.filter (fun tx => decide (datePortion tx.timestamp = p.1)))
      ∧ ∃ tx ∈ s.filteredTransactions, datePortion tx.timestamp = p.1 := by
    intro p hp
    rw [displayHistory_complete B s hcards] at hp
    simp only [List.mem_map, List.mem_reverse] at hp
    obtain ⟨date, hdate, rfl⟩ := hp
    have hdate' := (stableSort_perm compareStrings _).mem_iff.mp hdate
    exact ⟨rfl, (groupByDate_keys_mem _ _).mp hdate'⟩
  refine ⟨?_, ?_, ?_, ?_, ?_, ?_, ?_⟩
  · rw [displayHistory_complete B s hcards]
  · intro p hp
    rw [(hmem p hp).1]
    exact arraySort_perm B _ _
  · intro p hp tx htx
    rw [(hmem p hp).1, (arraySort_perm B _ _).mem_iff, List.mem_filter] at htx
    exact ⟨htx.1, by simpa using htx.2⟩
  · intro tx htx
    rw [hkeys, List.mem_reverse, (stableSort_perm compareStrings _).mem_iff,
      groupByDate_keys_mem]
    exact ⟨tx, htx, rfl⟩
  · intro p hp hnil
    obtain ⟨hp2, tx, htx, htd⟩ := hmem p hp
    have hin : tx ∈ p.2 := by
      rw [hp2, (arraySort_perm B _ _).mem_iff, List.mem_filter]
      exact ⟨htx, by simpa using htd⟩
    rw [hnil] at hin
    cases hin
  · intro p hp
    rw [(hmem p hp).1]
    apply arraySort_newestFirst_pairwise
    intro tx htx
    exact hdates tx (List.mem_filter.mp htx).1
  · rw [hkeys]
    exact sortedDates_descending _ (groupByDate_keys_nodup _)

/-- C16, amended, on three transactions that have a status, risk factors and
valid timestamps, two of 2024-01-01 and one of 2024-01-02: `displayHistory`
runs to its end, and the dates of the groups come in strictly descending
order. -/
theorem displayHistory_groups_witness :
    (∀ tx ∈ [cardTx "1" "2024-01-01T09:00:00", cardTx "2" "2024-01-02T09:00:00",
          cardTx "3" "2024-01-01T10:00:00"], (createTransactionCard tx).isSome = true)
    ∧ (displayHistory sampleBuiltins
        { allTransactions := [], filteredTransactions :=
            [cardTx "1" "2024-01-01T09:00:00", cardTx "2" "2024-01-02T09:00:00",
             cardTx "3" "2024-01-01T10:00:00"],
          lastTransactionCount := 0, autoRefreshInterval := none }).completed = true
    ∧ ((displayHistory sampleBuiltins
        { allTransactions := [], filteredTransactions :=
            [cardTx "1" "2024-01-01T09:00:00", cardTx "2" "2024-01-02T09:00:00",
             cardTx "3" "2024-01-01T10:00:00"],
          lastTransactionCount := 0, autoRefreshInterval := none }).groups.map
      (fun p => p.1)).Pairwise (fun a b => codeUnits b < codeUnits a) :=
  ⟨by decide,
    (displayHistory_groups sampleBuiltins
      { allTransactions := [], filteredTransactions :=
          [cardTx "1" "2024-01-01T09:00:00", cardTx "2" "2024-01-02T09:00:00",
           cardTx "3" "2024-01-01T10:00:00"],
        lastTransactionCount := 0, autoRefreshInterval := none }
      (by decide) (by decide)).1,
    (displayHistory_groups sampleBuiltins
      { allTransactions := [], filteredTransactions :=
          [cardTx "1" "2024-01-01T09:00:00", cardTx "2" "2024-01-02T09:00:00",
           cardTx "3" "2024-01-01T10:00:00"],
        lastTransactionCount := 0, autoRefreshInterval := none }
      (by decide) (by decide)).2.2.2.2.2.2⟩

/-! ## The CSV text (C20) -/

theorem toFixed1_zero : toFixed1 (toDouble (toDouble 0 * 100)) = "0.0" := by
  have h0 : toDouble (toDouble 0 * 100) = 0 := by
    simp [toDouble]
  have h : Int.floor (|(0 : ℚ)| * 10 + 1 / 2) = 0 := by
    rw [Int.floor_eq_iff]
    norm_num
  have h2 : ¬ ((0 : ℚ) < 0) := by norm_num
  rw [h0]
  simp only [toFixed1, h, if_neg h2]
  decide

/-- C20 fails on the code: for the list holding one transaction whose account
is the text 12"34, the row of `exportToCSV` carries the account as "12"34"
with the embedded double quote as it is, not doubled: only `name` and
`reason` go through `replace`. -/
theorem exportToCSV_account_not_escaped :
    exportToCSV sampleBuiltins sampleDateFormat (historyOf [accountTx "12\"34"])
      = ExportResult.csv
          ("Date,Time,Name,Account,Amount,Country,IFSC,Fraud Score,Status,Reason\n"
            ++ "\"2024-01-01\",\"09:00:00\",\"Asha\",\"12\"34\",100,\"IN\",\"HDFC0001\",0.0,"
            ++ "\"approved\",\"ok\"\n")
    ∧ escapeQuotes "12\"34" = "12\"\"34" := by
  constructor
  · simp only [exportToCSV, historyOf, csvRows, csvRow, accountTx, toFixed1_zero]
    decide
  · decide

/-! ## Score classes (C21) -/

theorem foldl_countScore (l : List Transaction) (r : ScoreRanges) :
    (l.foldl (fun r tx => countScore r tx.result.fraudScore) r).low
        = r.low + (l.filter (fun tx => decide (scoreClass tx = "low"))).length
    ∧ (l.foldl (fun r tx => countScore r tx.result.fraudScore) r).medium
        = r.medium + (l.filter (fun tx => decide (scoreClass tx = "medium"))).length
    ∧ (l.foldl (fun r tx => countScore r tx.result.fraudScore) r).high
        = r.high + (l.filter (fun tx => decide (scoreClass tx = "high"))).length := by
  induction l generalizing r with
  | nil => simp
  | cons tx l ih =>
    simp only [List.foldl_cons]
    obtain ⟨i1, i2, i3⟩ := ih (countScore r tx.result.fraudScore)
    rw [i1, i2, i3]
    by_cases h1 : tx.result.fraudScore < 0.4
    · simp [countScore, scoreClass, List.filter_cons, h1]
      omega
    · by_cases h2 : tx.result.fraudScore < 0.75
      · simp [countScore, scoreClass, List.filter_cons, h1, h2]
        omega
      · simp [countScore, scoreClass, List.filter_cons, h1, h2]
        omega

/-- C21: the class of a fraud score is high iff the score is at least 0.75,
medium iff it is at least 0.4 and below 0.75, and low iff it is below 0.4;
the score `forEach` of `createCharts` counts a score under the range that
`scoreClass` of `createTransactionCard` names, so each counter of
`scoreRanges` is the number of transactions whose card has that class; and
the score 0.85 is high for both. -/
theorem score_classes_agree (d : AnalyticsData) (tx : Transaction) (r : ScoreRanges) :
    (scoreClass tx = "high" ↔ 0.75 ≤ tx.result.fraudScore)
    ∧ (scoreClass tx = "medium" ↔ 0.4 ≤ tx.result.fraudScore ∧ tx.result.fraudScore < 0.75)
    ∧ (scoreClass tx = "low" ↔ tx.result.fraudScore < 0.4)
    ∧ countScore r tx.result.fraudScore
        = (if scoreClass tx = "low" then { r with low := r.low + 1 }
           else if scoreClass tx = "medium" then { r with medium := r.medium + 1 }
           else { r with high := r.high + 1 })
    ∧ (scoreRanges d).low
        = (d.allTransactions.filter (fun t => decide (scoreClass t = "low"))).length
    ∧ (scoreRanges d).medium
        = (d.allTransactions.filter (fun t => decide (scoreClass t = "medium"))).length
    ∧ (scoreRanges d).high
        = (d.allTransactions.filter (fun t => decide (scoreClass t = "high"))).length
    ∧ scoreClass (sampleTx "1" "2024-01-01T09:00:00" (.number 100) 0.85 "declined") = "high"
    ∧ countScore { low := 0, medium := 0, high := 0 } 0.85
        = { low := 0, medium := 0, high := 1 } := by
  obtain ⟨c1, c2, c3⟩ := foldl_countScore d.allTransactions { low := 0, medium := 0, high := 0 }
  refine ⟨?_, ?_, ?_, ?_, ?_, ?_, ?_, ?_, ?_⟩
  · unfold scoreClass
    by_cases h1 : tx.result.fraudScore < 0.4
    · have : ¬ (0.75 : ℚ) ≤ tx.result.fraudScore := by
        intro h; have := lt_of_le_of_lt h h1; norm_num at this
      simp [h1, this]
    · by_cases h2 : tx.result.fraudScore < 0.75
      · simp [h1, h2]
      · simp [h1, h2, not_lt.mp h2]
  · unfold scoreClass
    by_cases h1 : tx.result.fraudScore < 0.4
    · simp [h1, not_le.mpr h1]
    · by_cases h2 : tx.result.fraudScore < 0.75
      · simp [h1, h2, not_lt.mp h1]
      · simp [h1, h2]
  · unfold scoreClass
    by_cases h1 : tx.result.fraudScore < 0.4
    · simp [h1]
    · by_cases h2 : tx.result.fraudScore < 0.75
      · simp [h1, h2]
      · simp [h1, h2]
  · unfold countScore scoreClass
    by_cases h1 : tx.result.fraudScore < 0.4
    · simp [h1]
    · by_cases h2 : tx.result.fraudScore < 0.75
      · simp [h1, h2]
      · simp [h1, h2]
  · simpa [scoreRanges] using c1
  · simpa [scoreRanges] using c2
  · simpa [scoreRanges] using c3
  · simp only [scoreClass, sampleTx]
    norm_num
  · simp only [countScore]
    norm_num

/-! ## Missing fields in the CSV export (C22) -/

theorem csvRows_missing_name (B : Builtins) (F : DateFormat) (l : List Transaction)
    (h : ∃ tx ∈ l, tx.input.name = none) : csvRows B F l = none := by
  induction l with
  | nil =>
    obtain ⟨tx, htx, _⟩ := h
    cases htx
  | cons a l ih =>
    obtain ⟨tx, htx, hname⟩ := h
    rcases List.mem_cons.mp htx with e | hmem
    · subst e
      simp [csvRows, csvRow, hname]
    · have := ih ⟨tx, hmem, hname⟩
      simp only [csvRows, this]
      cases csvRow B F a <;> rfl

/-- Whatever the platform, a list that holds a transaction without a name is
not exported: the call ends with a TypeError and no row is produced. -/
theorem exportToCSV_missing_name (B : Builtins) (F : DateFormat) (s : HistoryState)
    (h : ∃ tx ∈ s.allTransactions, tx.input.name = none) :
    exportToCSV B F s = ExportResult.typeError := by
  have hne : s.allTransactions.length ≠ 0 := by
    obtain ⟨tx, htx, _⟩ := h
    intro h0
    rw [List.length_eq_zero.mp h0] at htx
    cases htx
  simp [exportToCSV, hne, csvRows_missing_name B F _ h]

/-- C22 fails on the code: for the list holding a transaction without a name
followed by a complete one, `exportToCSV` ends with the TypeError raised by
`tx.input.name.replace` and produces no row, not even for the complete
transaction; the complete transaction alone is exported. -/
theorem exportToCSV_halts_on_missing_name :
    exportToCSV sampleBuiltins sampleDateFormat (historyOf [namelessTx, accountTx "1234"])
      = ExportResult.typeError
    ∧ exportToCSV sampleBuiltins sampleDateFormat (historyOf [accountTx "1234"])
      = ExportResult.csv
          ("Date,Time,Name,Account,Amount,Country,IFSC,Fraud Score,Status,Reason\n"
            ++ "\"2024-01-01\",\"09:00:00\",\"Asha\",\"1234\",100,\"IN\",\"HDFC0001\",0.0,"
            ++ "\"approved\",\"ok\"\n") := by
  constructor
  · decide
  · simp only [exportToCSV, historyOf, csvRows, csvRow, accountTx, toFixed1_zero]
    decide

/-! ## Recent searches (C23) -/

/-- C23: for a stored list without duplicates, `saveSearch` with a term that
is blank after trimming leaves the stored value as it is; with any other term
the stored list afterwards starts with the term, has no duplicates, has at
most `MAX_RECENT_SEARCHES` = 5 entries, and after the term holds the previous
entries other than the term, in their previous order, cut to four. -/
theorem saveSearch_recent (term : String) (stored : Option (List String))
    (hnodup : (loadRecentSearches stored).Nodup) :
    (trim term = "" → saveSearch term stored = stored)
    ∧ (trim term ≠ "" →
        ∃ l, saveSearch term stored = some l
          ∧ l.head? = some term
          ∧ l.Nodup
          ∧ l.length ≤ 5
          ∧ l.tail = ((loadRecentSearches stored).filter (fun s => s != term)).take 4) := by
  constructor
  · intro h
    simp [saveSearch, h]
  · intro h
    refine ⟨(term :: (loadRecentSearches stored).filter (fun s => s != term)).take 5, ?_, ?_,
      ?_, ?_, ?_⟩
    · simp [saveSearch, h, MAX_RECENT_SEARCHES]
    · simp
    · have hfull : (term :: (loadRecentSearches stored).filter (fun s => s != term)).Nodup := by
        rw [List.nodup_cons]
        refine ⟨?_, hnodup.filter _⟩
        intro hmem
        have := (List.mem_filter.mp hmem).2
        simp at this
      exact hfull.sublist (List.take_sublist _ _)
    · simp only [List.length_take]
      exact Nat.min_le_left _ _
    · simp

/-- C23 on the stored list a, b, c, d, e and the term c: the new list is
c, a, b, d, e. -/
theorem saveSearch_recent_witness :
    saveSearch "c" (some ["a", "b", "c", "d", "e"]) = some ["c", "a", "b", "d", "e"]
    ∧ ∃ l, saveSearch "c" (some ["a", "b", "c", "d", "e"]) = some l
        ∧ l.head? = some "c"
        ∧ l.Nodup
        ∧ l.length ≤ 5
        ∧ l.tail = ((loadRecentSearches (some ["a", "b", "c", "d", "e"])).filter
            (fun s => s != "c")).take 4 :=
  ⟨by decide,
    (saveSearch_recent "c" (some ["a", "b", "c", "d", "e"]) (by decide)).2 (by decide)⟩

/-! ## The count of known transactions (C24) -/

theorem loadHistory_count (B : Builtins) (r : FetchResult) (s : HistoryState) :
    (loadHistory B r s).lastTransactionCount = s.lastTransactionCount := by
  cases r <;> rfl

theorem refreshHistory_count (B : Builtins) (hasDateFilter : Bool) (r : FetchResult)
    (s : HistoryState) :
    (refreshHistory B hasDateFilter r s).lastTransactionCount = s.lastTransactionCount := by
  cases hasDateFilter
  · rfl
  · simp only [refreshHistory, if_true, loadHistory_count]

theorem clearAllHistory_count (confirmed : Bool) (r : ResetResult) (s : HistoryState) :
    (clearAllHistory confirmed r s).lastTransactionCount = s.lastTransactionCount := by
  cases confirmed <;> cases r <;> rfl

theorem stopAutoRefresh_count (s : HistoryState) :
    (stopAutoRefresh s).1.lastTransactionCount = s.lastTransactionCount := by
  unfold stopAutoRefresh
  split <;> rfl

theorem checkForNewTransactions_count (B : Builtins) (c : Controls) (r : FetchResult)
    (s : HistoryState) :
    s.lastTransactionCount ≤ (checkForNewTransactions B c r s).1.lastTransactionCount := by
  cases r with
  | ok h =>
    by_cases hgt : (flattenHistory h).length > s.lastTransactionCount
    · simp only [checkForNewTransactions, if_pos hgt, filterHistory]
      exact le_of_lt hgt
    · simp only [checkForNewTransactions, if_neg hgt]
      exact le_refl _
  | unauthorized =>
    simp only [checkForNewTransactions, stopAutoRefresh_count]
    exact le_refl _
  | failed => exact le_refl _

theorem apply_count (B : Builtins) (s : HistoryState) (op : HistoryOp) :
    s.lastTransactionCount ≤ (op.apply B s).lastTransactionCount := by
  cases op with
  | loadHistory r => exact le_of_eq (loadHistory_count B r s).symm
  | refreshHistory e r => exact le_of_eq (refreshHistory_count B e r s).symm
  | clearAllHistory confirmed r => exact le_of_eq (clearAllHistory_count confirmed r s).symm
  | checkForNewTransactions c r => exact checkForNewTransactions_count B c r s
  | filterHistory c => exact le_refl _
  | startAutoRefresh handle => exact le_refl _
  | stopAutoRefresh => exact le_of_eq (stopAutoRefresh_count s).symm

/-- C24: over any sequence of operations of the history view (loading,
refreshing, clearing, poll ticks, filtering, starting and stopping the timer)
`lastTransactionCount` never decreases. A confirmed `clearAllHistory` with an
ok response empties `allTransactions` and `filteredTransactions` and leaves
`lastTransactionCount` as it was; so a poll tick that follows and fetches no
more transactions than that count changes nothing and raises no
notification: the store stays empty. -/
theorem lastTransactionCount_never_decreases (B : Builtins) (ops : List HistoryOp)
    (s : HistoryState) (c : Controls) (h : HistoryByDate) :
    s.lastTransactionCount ≤ (runHistory B ops s).lastTransactionCount
    ∧ (clearAllHistory true .ok s).allTransactions = []
    ∧ (clearAllHistory true .ok s).filteredTransactions = []
    ∧ (clearAllHistory true .ok s).lastTransactionCount = s.lastTransactionCount
    ∧ ((flattenHistory h).length ≤ s.lastTransactionCount →
        checkForNewTransactions B c (.ok h) (clearAllHistory true .ok s)
            = (clearAllHistory true .ok s, false)
        ∧ (checkForNewTransactions B c (.ok h) (clearAllHistory true .ok s)).1.allTransactions
            = []) := by
  refine ⟨?_, rfl, rfl, rfl, ?_⟩
  · unfold runHistory
    induction ops generalizing s with
    | nil => exact le_refl _
    | cons op ops ih =>
      simp only [List.foldl_cons]
      exact le_trans (apply_count B s op) (ih (op.apply B s))
  · intro hle
    have hnot : ¬ (flattenHistory h).length > (clearAllHistory true .ok s).lastTransactionCount :=
      not_lt.mpr hle
    have heq : checkForNewTransactions B c (.ok h) (clearAllHistory true .ok s)
        = (clearAllHistory true .ok s, false) := by
      simp only [checkForNewTransactions, if_neg hnot]
    exact ⟨heq, by rw [heq]; rfl⟩

/-- C24 on a page that knows the four transactions of the example of the
specification: after the history is cleared, a poll tick that fetches one
transaction leaves the store empty. -/
theorem lastTransactionCount_never_decreases_witness :
    (checkForNewTransactions sampleBuiltins (dateControls "" "" none)
        (.ok [("2024-01-03", [accountTx "1234"])])
        (clearAllHistory true .ok
          { allTransactions := exampleTransactions, filteredTransactions := exampleTransactions,
            lastTransactionCount := 4, autoRefreshInterval := some 7 })).1.allTransactions
      = [] :=
  ((lastTransactionCount_never_decreases sampleBuiltins []
      { allTransactions := exampleTransactions, filteredTransactions := exampleTransactions,
        lastTransactionCount := 4, autoRefreshInterval := some 7 }
      (dateControls "" "" none) [("2024-01-03", [accountTx "1234"])]).2.2.2.2 (by decide)).2

end FraudDashboard
